import Mathlib

/-!
Shallow embedding of the canvas interaction engine of the Will task-canvas
application (src/hooks/useCanvasInteraction.ts) together with the
connection/cycle guard of the task-relationship owner (src/unnamed/part_000).

Numbers are modelled as rationals; JS `Math.round` is floor (x + 1/2);
JS falsy defaulting (`v || d`) treats both `undefined` and `0` as absent.
JS `Map` objects are modelled as insertion-ordered association lists with
overwrite-on-set, and JS `Set` objects as insertion-ordered duplicate-free
lists.
-/

namespace Will

/-- Geometry-relevant fields of a Task (src/unnamed/part_008, interface Task).
Fields irrelevant to the interaction engine (title, checklist, ...) are omitted;
the engine reads only id, x, y, width, height and parentId. -/
structure Task where
  id : String
  x : ℚ
  y : ℚ
  width : Option ℚ := none
  height : Option ℚ := none
  parentId : Option String := none
deriving Repr, DecidableEq

/-- Geometry-relevant fields of a Group (src/unnamed/part_008, interface Group). -/
structure Group where
  id : String
  x : ℚ
  y : ℚ
  width : ℚ
  height : ℚ
deriving Repr, DecidableEq

/-- Viewport: pan offset in screen pixels plus zoom scale. -/
structure Viewport where
  x : ℚ
  y : ℚ
  scale : ℚ
deriving Repr, DecidableEq

/-- A point in world (canvas) space. -/
structure Point where
  x : ℚ
  y : ℚ
deriving Repr, DecidableEq

/-- JS falsy defaulting `v || d` on an optional number: `undefined` and the
falsy value `0` both fall back to the default. -/
def orDefault : Option ℚ → ℚ → ℚ
  | none, d => d
  | some v, d => if v = 0 then d else v

/-- JS Math.round: round half toward positive infinity. -/
def jsRound (q : ℚ) : ℚ := ((⌊q + 1/2⌋ : ℤ) : ℚ)

/-- screenToCanvas (useCanvasInteraction.ts lines 99-106):
world = (screen - viewport offset) / viewport scale. -/
def screenToCanvas (v : Viewport) (sx sy : ℚ) : Point :=
  ⟨(sx - v.x) / v.scale, (sy - v.y) / v.scale⟩

/-- Direction of an alignment guide line. -/
inductive GuideDir
  | horizontal
  | vertical
deriving Repr, DecidableEq

/-- A transient alignment guide (field `type` in the source is `kind` here). -/
structure GuideLine where
  kind : GuideDir
  pos : ℚ
deriving Repr, DecidableEq

/-! ### Snap resolver (calculateSnap, lines 109-208) -/

/-- One snap candidate: the x (resp. y) the dragged entity would take, the
guide position, and the distance between the matched edges. -/
structure SnapCand where
  val : ℚ
  guide : ℚ
  dist : ℚ
deriving Repr, DecidableEq

/-- The five x-axis candidates a sibling contributes (lines 151-157):
left-left, right-left, left-right, right-right, center-center. -/
def xSnaps (proposedX width : ℚ) (o : Task) : List SnapCand :=
  let otherW := orDefault o.width 300
  let tLeft := o.x
  let tRight := o.x + otherW
  let tCenter := o.x + otherW / 2
  [ ⟨tLeft, tLeft, |proposedX - tLeft|⟩,
    ⟨tLeft - width, tLeft, |proposedX + width - tLeft|⟩,
    ⟨tRight, tRight, |proposedX - tRight|⟩,
    ⟨tRight - width, tRight, |proposedX + width - tRight|⟩,
    ⟨tCenter - width / 2, tCenter, |proposedX + width / 2 - tCenter|⟩ ]

/-- The five y-axis candidates a sibling contributes (lines 168-174). -/
def ySnaps (proposedY height : ℚ) (o : Task) : List SnapCand :=
  let otherH := orDefault o.height 100
  let tTop := o.y
  let tBottom := o.y + otherH
  let tCenter := o.y + otherH / 2
  [ ⟨tTop, tTop, |proposedY - tTop|⟩,
    ⟨tTop - height, tTop, |proposedY + height - tTop|⟩,
    ⟨tBottom, tBottom, |proposedY - tBottom|⟩,
    ⟨tBottom - height, tBottom, |proposedY + height - tBottom|⟩,
    ⟨tCenter - height / 2, tCenter, |proposedY + height / 2 - tCenter|⟩ ]

/-- Running best candidate on one axis: the best distance so far and,
when a candidate has been accepted, its value and guide position. -/
structure AxisBest where
  bestD : ℚ
  best : Option (ℚ × ℚ)
deriving Repr, DecidableEq

/-- One step of the candidate scan (lines 159-165 / 176-182): a candidate
replaces the running best exactly when its distance is strictly smaller. -/
def snapStep (s : AxisBest) (c : SnapCand) : AxisBest :=
  if c.dist < s.bestD then ⟨c.dist, some (c.val, c.guide)⟩ else s

/-- The siblings considered by the snap scan (lines 133-136): every task other
than the dragged one and not part of the dragged multi-selection. -/
def siblings (tasks : List Task) (id : String) (targetIds : List String) : List Task :=
  tasks.filter (fun o => o.id ≠ id ∧ ¬ targetIds.contains o.id)

/-- All x-axis candidates in scan order. -/
def xCands (tasks : List Task) (id : String) (targetIds : List String)
    (proposedX width : ℚ) : List SnapCand :=
  (siblings tasks id targetIds).flatMap (xSnaps proposedX width)

/-- All y-axis candidates in scan order. -/
def yCands (tasks : List Task) (id : String) (targetIds : List String)
    (proposedY height : ℚ) : List SnapCand :=
  (siblings tasks id targetIds).flatMap (ySnaps proposedY height)

/-- Snap threshold in world units (line 111): 12 screen pixels over scale. -/
def snapThreshold (scale : ℚ) : ℚ := 12 / scale

/-- Grid size for the soft grid fallback (line 112). -/
def gridSize : ℚ := 10

/-- Soft grid snap (lines 195, 203): round to the nearest multiple of 10. -/
def gridSnap (q : ℚ) : ℚ := jsRound (q / gridSize) * gridSize

/-- Result of calculateSnap: adjusted position plus guide lines. -/
structure SnapOut where
  x : ℚ
  y : ℚ
  guides : List GuideLine
deriving Repr, DecidableEq

/-- calculateSnap (lines 109-208). The per-axis scans are independent folds
over the candidate stream; `bestDx`/`bestDy` start at threshold + 1 and a
candidate is kept on strict improvement. An accepted sibling candidate yields
the snapped coordinate plus a guide; otherwise the axis falls back to the
grid and contributes no guide (vertical guide pushed before horizontal). -/
def calculateSnap (tasks : List Task) (targetIds : List String) (id : String)
    (proposedX proposedY width height scale : ℚ) : SnapOut :=
  let t := snapThreshold scale
  let bx := (xCands tasks id targetIds proposedX width).foldl snapStep ⟨t + 1, none⟩
  let bYv := (yCands tasks id targetIds proposedY height).foldl snapStep ⟨t + 1, none⟩
  let finalX := match bx.best with
    | some vg => vg.1
    | none => gridSnap proposedX
  let finalY := match bYv.best with
    | some vg => vg.1
    | none => gridSnap proposedY
  let gx : List GuideLine := match bx.best with
    | some vg => [⟨GuideDir.vertical, vg.2⟩]
    | none => []
  let gy : List GuideLine := match bYv.best with
    | some vg => [⟨GuideDir.horizontal, vg.2⟩]
    | none => []
  ⟨finalX, finalY, gx ++ gy⟩

/-! ### Interaction state machine -/

/-- The gesture kinds (field `type` of InteractionState in the source). -/
inductive IKind
  | idle
  | panning
  | selecting
  | dragging_node
  | dragging_group
  | resizing_group
  | connecting
deriving Repr, DecidableEq

/-- InteractionState (useCanvasInteraction.ts lines 4-18). The JS Maps
`initialPositions` and `initialChildrenPositions` are insertion-ordered
association lists from id to starting (x, y). -/
structure InteractionState where
  kind : IKind
  startX : ℚ := 0
  startY : ℚ := 0
  currentX : ℚ := 0
  currentY : ℚ := 0
  targetIds : List String := []
  primaryId : Option String := none
  initialPositions : List (String × ℚ × ℚ) := []
  draggedChildrenIds : List String := []
  initialChildrenPositions : List (String × ℚ × ℚ) := []
  connectionStartId : Option String := none
deriving Repr, DecidableEq

/-- JS Map.set: overwrite in place when the key exists, else append. -/
def mapSet (m : List (String × ℚ × ℚ)) (k : String) (v : ℚ × ℚ) :
    List (String × ℚ × ℚ) :=
  if m.any (fun ent => ent.1 = k) then
    m.map (fun ent => if ent.1 = k then (k, v) else ent)
  else m ++ [(k, v)]

/-- JS Map.get. -/
def mapGet (m : List (String × ℚ × ℚ)) (k : String) : Option (ℚ × ℚ) :=
  (m.find? (fun ent => ent.1 = k)).map (fun ent => ent.2)

/-- JS Set.add: append unless already present. -/
def setAdd (s : List String) (x : String) : List String :=
  if s.contains x then s else s ++ [x]

/-- JS Set.delete. -/
def setDel (s : List String) (x : String) : List String :=
  s.filter (fun y => y ≠ x)

/-- A batched position update `{id, x, y}` sent to onTasksUpdate or
onGroupsUpdate. -/
structure PosUpdate where
  id : String
  x : ℚ
  y : ℚ
deriving Repr, DecidableEq

/-- The externally visible callbacks the interaction engine can invoke,
reified as an effect trace. -/
inductive Effect
  | pushHistory
  | tasksUpdate (updates : List PosUpdate)
  | groupsUpdate (updates : List PosUpdate)
  | groupResize (id : String) (width height : ℚ)
  | setGuides (guides : List GuideLine)
  | viewportPan (dx dy : ℚ)
deriving Repr, DecidableEq

/-- The mouse-event fields the handlers read. -/
structure MouseEvt where
  clientX : ℚ
  clientY : ℚ
  shiftKey : Bool := false
  button : ℤ := 0
deriving Repr, DecidableEq

/-- A pointer-move payload (the dispatcher keeps only clientX/clientY). -/
structure PointerEvt where
  clientX : ℚ
  clientY : ℚ
deriving Repr, DecidableEq

/-- The interaction mode prop. -/
inductive IMode
  | pointer
  | hand
deriving Repr, DecidableEq

/-- Whether a node press targets a task or a group. -/
inductive EntityKind
  | task
  | group
deriving Repr, DecidableEq

/-- Result of handleNodeMouseDown: the new selection sets, the new
interaction state and the emitted effects. -/
structure DownResult where
  selTasks : List String
  selGroups : List String
  interaction : InteractionState
  effects : List Effect
deriving Repr, DecidableEq

/-- Containment test of the group-drag child capture (lines 285-295):
a task belongs to the group when its center (with falsy-defaulted
width 300 / height 150) lies inside the group's rectangle. -/
def childInGroup (g : Group) (t : Task) : Bool :=
  let tW := orDefault t.width 300
  let tH := orDefault t.height 150
  let cx := t.x + tW / 2
  let cy := t.y + tH / 2
  decide (g.x ≤ cx ∧ cx ≤ g.x + g.width ∧ g.y ≤ cy ∧ cy ≤ g.y + g.height)

/-- handleNodeMouseDown (lines 239-311). Returns none on the early exits
(non-left button, hand mode). The selection update is returned, while the
captured target ids are computed from the pre-update selection sets, exactly
as the source captures state before the asynchronous selection update. -/
def handleNodeMouseDown (tasks : List Task) (groups : List Group)
    (selectedTaskIds selectedGroupIds : List String) (mode : IMode)
    (e : MouseEvt) (id : String) (ty : EntityKind) : Option DownResult :=
  if e.button ≠ 0 then none
  else if mode = IMode.hand then none
  else
    let sel : List String × List String :=
      match ty with
      | EntityKind.task =>
        if e.shiftKey then
          (if selectedTaskIds.contains id then setDel selectedTaskIds id
           else setAdd selectedTaskIds id, selectedGroupIds)
        else if selectedTaskIds.contains id then (selectedTaskIds, selectedGroupIds)
        else ([id], [])
      | EntityKind.group =>
        if selectedGroupIds.contains id then (selectedTaskIds, selectedGroupIds)
        else ([], [id])
    let currentSelectedTaskIds :=
      match ty with
      | EntityKind.task =>
        if selectedTaskIds.contains id then selectedTaskIds else [id]
      | EntityKind.group => selectedTaskIds
    let currentSelectedGroupIds :=
      match ty with
      | EntityKind.group =>
        if selectedGroupIds.contains id then selectedGroupIds else [id]
      | EntityKind.task => selectedGroupIds
    let targetIds :=
      match ty with
      | EntityKind.task => currentSelectedTaskIds
      | EntityKind.group => currentSelectedGroupIds
    let targetGroups := groups.filter (fun g => targetIds.contains g.id)
    let initialPos : List (String × ℚ × ℚ) :=
      match ty with
      | EntityKind.task =>
        (tasks.filter (fun t => targetIds.contains t.id)).foldl
          (fun m t => mapSet m t.id (t.x, t.y)) []
      | EntityKind.group =>
        targetGroups.foldl (fun m g => mapSet m g.id (g.x, g.y)) []
    let childrenIds : List String :=
      match ty with
      | EntityKind.task => []
      | EntityKind.group =>
        targetGroups.flatMap (fun g => (tasks.filter (childInGroup g)).map Task.id)
    let initialChildrenPos : List (String × ℚ × ℚ) :=
      match ty with
      | EntityKind.task => []
      | EntityKind.group =>
        targetGroups.foldl
          (fun m g => (tasks.filter (childInGroup g)).foldl
            (fun m2 t => mapSet m2 t.id (t.x, t.y)) m) []
    some
      { selTasks := sel.1
        selGroups := sel.2
        interaction :=
          { kind := match ty with
              | EntityKind.task => IKind.dragging_node
              | EntityKind.group => IKind.dragging_group
            startX := e.clientX
            startY := e.clientY
            currentX := e.clientX
            currentY := e.clientY
            targetIds := targetIds
            primaryId := some id
            initialPositions := initialPos
            draggedChildrenIds := childrenIds
            initialChildrenPositions := initialChildrenPos }
        effects := [Effect.pushHistory] }

/-- Result of handleGroupResizeStart: the new interaction state is absent
when the group does not exist (the source then returns after having already
pushed history). -/
structure ResizeStartResult where
  interaction : Option InteractionState
  effects : List Effect
deriving Repr, DecidableEq

/-- handleGroupResizeStart (lines 332-346). none on the hand-mode early exit;
otherwise pushHistory is emitted before the group lookup. -/
def handleGroupResizeStart (groups : List Group) (mode : IMode)
    (e : MouseEvt) (id : String) : Option ResizeStartResult :=
  if mode = IMode.hand then none
  else
    match groups.find? (fun g => g.id = id) with
    | none => some ⟨none, [Effect.pushHistory]⟩
    | some g =>
      some ⟨some
        { kind := IKind.resizing_group
          startX := e.clientX
          startY := e.clientY
          currentX := e.clientX
          currentY := e.clientY
          targetIds := [id]
          initialPositions := [(id, (g.width, g.height))] },
        [Effect.pushHistory]⟩

/-- The dragging_node snap adjustment (lines 372-393): picks the primary
grabbed node, proposes its raw new position, snaps it, and turns the snapped
position back into the shared delta. Returns the effective world delta and
the guide effect: the else-branch (line 392) clears guides, the branch where
the primary task is missing from the task list emits no guide effect at all,
and the snap branch emits the guides calculateSnap set (line 206). -/
def nodeSnapAdjust (scale : ℚ) (tasks : List Task) (st : InteractionState)
    (e : PointerEvt) : (ℚ × ℚ) × List Effect :=
  let deltaX := (e.clientX - st.startX) / scale
  let deltaY := (e.clientY - st.startY) / scale
  match st.primaryId.orElse (fun _ => st.targetIds.head?) with
  | none => ((deltaX, deltaY), [Effect.setGuides []])
  | some p =>
    match mapGet st.initialPositions p with
    | none => ((deltaX, deltaY), [Effect.setGuides []])
    | some sp =>
      match tasks.find? (fun t => t.id = p) with
      | none => ((deltaX, deltaY), [])
      | some task =>
        let snapped := calculateSnap tasks st.targetIds p (sp.1 + deltaX)
          (sp.2 + deltaY) (orDefault task.width 300) (orDefault task.height 100) scale
        ((snapped.x - sp.1, snapped.y - sp.2), [Effect.setGuides snapped.guides])

/-- Result of one frame computation: the (possibly updated) interaction state
and the effects emitted during the frame, in emission order. -/
structure FrameResult where
  interaction : InteractionState
  effects : List Effect
deriving Repr, DecidableEq

/-- processMouseMove (lines 348-433), one throttled frame computation. -/
def processMouseMove (scale : ℚ) (tasks : List Task) (st : InteractionState)
    (e : PointerEvt) : FrameResult :=
  match st.kind with
  | IKind.idle => ⟨st, []⟩
  | IKind.panning =>
    ⟨{ st with currentX := e.clientX, currentY := e.clientY },
     [Effect.viewportPan (e.clientX - st.currentX) (e.clientY - st.currentY)]⟩
  | IKind.selecting =>
    ⟨{ st with currentX := e.clientX, currentY := e.clientY }, []⟩
  | IKind.connecting =>
    ⟨{ st with currentX := e.clientX, currentY := e.clientY }, []⟩
  | IKind.dragging_node =>
    let adj := nodeSnapAdjust scale tasks st e
    ⟨st, adj.2 ++ [Effect.tasksUpdate (st.initialPositions.map
        (fun ent => ⟨ent.1, ent.2.1 + adj.1.1, ent.2.2 + adj.1.2⟩))]⟩
  | IKind.dragging_group =>
    let dX := (e.clientX - st.startX) / scale
    let dY := (e.clientY - st.startY) / scale
    let gUpdates := st.initialPositions.map
      (fun ent => PosUpdate.mk ent.1 (ent.2.1 + dX) (ent.2.2 + dY))
    let cUpdates := st.initialChildrenPositions.map
      (fun ent => PosUpdate.mk ent.1 (ent.2.1 + dX) (ent.2.2 + dY))
    ⟨st, [Effect.setGuides [], Effect.groupsUpdate gUpdates] ++
      (if st.initialChildrenPositions.length > 0 then [Effect.tasksUpdate cUpdates] else [])⟩
  | IKind.resizing_group =>
    match st.targetIds.head? with
    | none => ⟨st, []⟩
    | some gid =>
      match mapGet st.initialPositions gid with
      | none => ⟨st, []⟩
      | some startDims =>
        let newW := max 200 (startDims.1 + (e.clientX - st.startX) / scale)
        let newH := max 100 (startDims.2 + (e.clientY - st.startY) / scale)
        ⟨st, [Effect.groupResize gid newW newH]⟩

/-- Result of handleMouseUp: the possibly changed task selection, the reset
interaction state and the trailing setGuides([]) effect. -/
structure UpResult where
  selTasks : List String
  interaction : InteractionState
  effects : List Effect
deriving Repr, DecidableEq

/-- The AABB overlap test of the marquee resolution (line 468). -/
def marqueeHits (t : Task) (x y w h : ℚ) : Bool :=
  let tW := orDefault t.width 300
  let tH := orDefault t.height 150
  decide (t.x < x + w ∧ t.x + tW > x ∧ t.y < y + h ∧ t.y + tH > y)

/-- handleMouseUp (lines 446-486). Only the selecting branch inspects the
gesture; every branch clears guides and resets the machine to idle. -/
def handleMouseUp (viewport : Viewport) (tasks : List Task)
    (selectedTaskIds : List String) (st : InteractionState) (e : MouseEvt) :
    UpResult :=
  let idleSt : InteractionState := { kind := IKind.idle }
  if st.kind = IKind.selecting then
    let sP := screenToCanvas viewport st.startX st.startY
    let eP := screenToCanvas viewport e.clientX e.clientY
    let x := min sP.x eP.x
    let y := min sP.y eP.y
    let w := |eP.x - sP.x|
    let h := |eP.y - sP.y|
    if w > 5 ∨ h > 5 then
      let intersectedIds := tasks.foldl
        (fun acc t => if marqueeHits t x y w h then setAdd acc t.id else acc) []
      let newSel :=
        if e.shiftKey then
          intersectedIds.foldl
            (fun s i => if s.contains i then setDel s i else setAdd s i)
            selectedTaskIds
        else intersectedIds
      ⟨newSel, idleSt, [Effect.setGuides []]⟩
    else ⟨selectedTaskIds, idleSt, [Effect.setGuides []]⟩
  else ⟨selectedTaskIds, idleSt, [Effect.setGuides []]⟩

/-! ### Applying emitted updates and running a gesture

handleTasksUpdate in the owning component (src/unnamed/part_000 lines
219-224) rebuilds each task from the last update bearing its id. -/

/-- handleTasksUpdate: positions of mentioned ids are overwritten (last
update wins, as in the JS Map construction), all other fields kept. -/
def applyTasksUpdate (tasks : List Task) (updates : List PosUpdate) : List Task :=
  tasks.map (fun t =>
    match (updates.filter (fun u => u.id = t.id)).getLast? with
    | some u => { t with x := u.x, y := u.y }
    | none => t)

/-- Apply the task-position consequences of one frame's effects. -/
def applyFrameEffects (tasks : List Task) (effects : List Effect) : List Task :=
  effects.foldl
    (fun ts ef => match ef with
      | Effect.tasksUpdate us => applyTasksUpdate ts us
      | _ => ts) tasks

/-- Run a sequence of throttled frames: each frame computes from the current
interaction state and task list, and its emitted task updates are committed
by the owner before the next frame reads. Returns the final interaction
state, the final task list, and the concatenated effect trace. -/
def runFrames (scale : ℚ) (st : InteractionState) (tasks : List Task) :
    List PointerEvt → InteractionState × List Task × List Effect
  | [] => (st, tasks, [])
  | e :: es =>
    let fr := processMouseMove scale tasks st e
    let rest := runFrames scale fr.interaction (applyFrameEffects tasks fr.effects) es
    (rest.1, rest.2.1, fr.effects ++ rest.2.2)

/-- Number of pushHistory calls in an effect trace. -/
def countPush (effects : List Effect) : Nat :=
  (effects.filter (fun ef => ef = Effect.pushHistory)).length

/-! ### Connection guard (src/unnamed/part_000 lines 238-259)

The source hasCycle is an unbounded recursion; the embedding adds an explicit
fuel parameter and returns none when the fuel runs out, so that a run of the
source that terminates corresponds to `some b` for every sufficiently large
fuel, and an infinite run corresponds to `none` for every fuel. -/

/-- Falsy test of `!parent.parentId`: absent or empty string. -/
def noParent : Option String → Bool
  | none => true
  | some s => s = ""

/-- hasCycle (lines 238-244), fueled: walk up from parentId via parent links
until childId is met (cycle) or a task with no parent is reached. -/
def hasCycleF : Nat → String → String → List Task → Option Bool
  | 0, _, _, _ => none
  | fuel + 1, parentId, childId, allTasks =>
    if parentId = childId then some true
    else
      match allTasks.find? (fun t => t.id = parentId) with
      | none => some false
      | some parent =>
        match parent.parentId with
        | none => some false
        | some pp => if pp = "" then some false else hasCycleF fuel pp childId allTasks

/-- handleConnectionMade (lines 246-259): returns the resulting task list
paired with the number of pushHistory calls; none when the cycle walk runs
out of fuel. A duplicate edge returns before the cycle walk; a detected
cycle rejects; otherwise the child's parentId is rewritten after one
history push. -/
def handleConnectionMade (fuel : Nat) (parentId childId : String)
    (tasks : List Task) : Option (List Task × Nat) :=
  if (tasks.find? (fun t => t.id = childId)).bind Task.parentId = some parentId then
    some (tasks, 0)
  else
    match hasCycleF fuel parentId childId tasks with
    | none => none
    | some true => some (tasks, 0)
    | some false =>
      some (tasks.map (fun t =>
        if t.id = childId then { t with parentId := some parentId } else t), 1)

/-! ### Theorems -/

/-- Claim C9: screenToCanvas computes ((sx - v.x) / v.scale, (sy - v.y) / v.scale),
and for nonzero scale the inverse transform (canvas * scale + offset) returns the
original screen point exactly. -/
theorem screenToCanvas_round_trip (v : Viewport) (sx sy : ℚ) (h : v.scale ≠ 0) :
    screenToCanvas v sx sy = ⟨(sx - v.x) / v.scale, (sy - v.y) / v.scale⟩ ∧
    (screenToCanvas v sx sy).x * v.scale + v.x = sx ∧
    (screenToCanvas v sx sy).y * v.scale + v.y = sy := by
  refine ⟨rfl, ?_, ?_⟩ <;> simp [screenToCanvas] <;> field_simp

/-- Witness for C9 at viewport (5, 7, scale 2) and screen point (11, 13). -/
theorem screenToCanvas_round_trip_witness :
    (Viewport.mk 5 7 2).scale ≠ 0 ∧
    (screenToCanvas ⟨5, 7, 2⟩ 11 13 = ⟨(11 - 5) / 2, (13 - 7) / 2⟩ ∧
     (screenToCanvas ⟨5, 7, 2⟩ 11 13).x * 2 + 5 = 11 ∧
     (screenToCanvas ⟨5, 7, 2⟩ 11 13).y * 2 + 7 = 13) :=
  ⟨by norm_num, screenToCanvas_round_trip ⟨5, 7, 2⟩ 11 13 (by norm_num)⟩

/-- Claim C6: a completed connection is rejected, with the task list unchanged
and no history push, when the source equals the target, when the target's
parentId already equals the source, or when the fueled ancestor walk detects
a cycle. -/
theorem connection_rejected (fuel : Nat) (parentId childId : String)
    (tasks : List Task) (hfuel : 1 ≤ fuel)
    (h : parentId = childId ∨
         (tasks.find? (fun t => t.id = childId)).bind Task.parentId = some parentId ∨
         hasCycleF fuel parentId childId tasks = some true) :
    handleConnectionMade fuel parentId childId tasks = some (tasks, 0) := by
  have hcyc : parentId = childId → hasCycleF fuel parentId childId tasks = some true := by
    intro he
    obtain ⟨n, rfl⟩ : ∃ n, fuel = n + 1 := ⟨fuel - 1, by omega⟩
    simp [hasCycleF, he]
  by_cases hdup : (tasks.find? (fun t => t.id = childId)).bind Task.parentId = some parentId
  · simp [handleConnectionMade, hdup]
  · rcases h with h | h | h
    · simp [handleConnectionMade, hdup, hcyc h]
    · exact absurd h hdup
    · simp [handleConnectionMade, hdup, h]

/-- The chain of the C6 test scenario: C's parent is B, B's parent is A. -/
def chainTasks : List Task :=
  [⟨"A", 0, 0, none, none, none⟩,
   ⟨"B", 0, 0, none, none, some "A"⟩,
   ⟨"C", 0, 0, none, none, some "B"⟩]

/-- Witness for C6: connecting C as a parent of A in the chain A→B→C is
rejected via the ancestor walk, leaving tasks and history untouched. -/
theorem connection_rejected_witness :
    (1 ≤ 3 ∧ hasCycleF 3 "C" "A" chainTasks = some true) ∧
    handleConnectionMade 3 "C" "A" chainTasks = some (chainTasks, 0) :=
  ⟨⟨by norm_num, by decide⟩,
   connection_rejected 3 "C" "A" chainTasks (by norm_num)
     (Or.inr (Or.inr (by decide)))⟩

/-- A malformed parent graph: a and b form a parent cycle that does not
contain the probed child id. -/
def cyclicTasks : List Task :=
  [⟨"a", 0, 0, none, none, some "b"⟩,
   ⟨"b", 0, 0, none, none, some "a"⟩]

/-- Claim C7 (code bug): the source ancestor walk has neither a depth cap nor
a visited set, so on the malformed input where a and b point at each other and
the probed id x is outside the cycle, the walk never terminates: the fueled
embedding exhausts every fuel. -/
theorem hasCycle_not_terminating : ∀ fuel : Nat,
    hasCycleF fuel "a" "x" cyclicTasks = none ∧
    hasCycleF fuel "b" "x" cyclicTasks = none := by
  intro fuel
  induction fuel with
  | zero => exact ⟨rfl, rfl⟩
  | succ n ih =>
    refine ⟨?_, ?_⟩
    · have hstep : hasCycleF (n + 1) "a" "x" cyclicTasks =
          hasCycleF n "b" "x" cyclicTasks := rfl
      exact hstep.trans ih.2
    · have hstep : hasCycleF (n + 1) "b" "x" cyclicTasks =
          hasCycleF n "a" "x" cyclicTasks := rfl
      exact hstep.trans ih.1

lemma countPush_append (l1 l2 : List Effect) :
    countPush (l1 ++ l2) = countPush l1 + countPush l2 := by
  simp [countPush, List.filter_append]

lemma countPush_eq_zero (l : List Effect) :
    countPush l = 0 ↔ Effect.pushHistory ∉ l := by
  simp only [countPush, List.length_eq_zero, List.filter_eq_nil_iff]
  constructor
  · intro h hmem
    exact absurd (by simp) (h _ hmem)
  · intro h ef hef
    simp only [decide_eq_true_eq]
    intro he
    exact h (he ▸ hef)

lemma nodeSnapAdjust_snd_shape (scale : ℚ) (tasks : List Task)
    (st : InteractionState) (e : PointerEvt) :
    (nodeSnapAdjust scale tasks st e).2 = [] ∨
    ∃ gl, (nodeSnapAdjust scale tasks st e).2 = [Effect.setGuides gl] := by
  unfold nodeSnapAdjust
  split
  · exact Or.inr ⟨[], rfl⟩
  · split
    · exact Or.inr ⟨[], rfl⟩
    · split
      · exact Or.inl rfl
      · exact Or.inr ⟨_, rfl⟩

lemma processMouseMove_no_push (scale : ℚ) (tasks : List Task)
    (st : InteractionState) (e : PointerEvt) :
    countPush (processMouseMove scale tasks st e).effects = 0 := by
  rw [countPush_eq_zero]
  rcases st with ⟨k, sX, sY, cX, cY, tIds, pId, iPos, dIds, icPos, csId⟩
  cases k
  case idle => simp [processMouseMove]
  case panning => simp [processMouseMove]
  case selecting => simp [processMouseMove]
  case connecting => simp [processMouseMove]
  case dragging_node =>
    rcases nodeSnapAdjust_snd_shape scale tasks
        ⟨IKind.dragging_node, sX, sY, cX, cY, tIds, pId, iPos, dIds, icPos, csId⟩ e
      with h | ⟨gl, h⟩ <;>
      simp [processMouseMove, h]
  case dragging_group => simp [processMouseMove]
  case resizing_group =>
    simp only [processMouseMove]
    split
    · simp
    · split <;> simp

lemma runFrames_no_push (scale : ℚ) (events : List PointerEvt) :
    ∀ (st : InteractionState) (tasks : List Task),
    countPush (runFrames scale st tasks events).2.2 = 0 := by
  induction events with
  | nil => intro st tasks; simp [runFrames, countPush]
  | cons e es ih =>
    intro st tasks
    simp only [runFrames, countPush_append]
    rw [processMouseMove_no_push, ih]

/-- Claim C1: a drag gesture started by handleNodeMouseDown and a resize
gesture started by handleGroupResizeStart on an existing group each push
history exactly once, as the very first emitted effect — before any position
or size update — and no pointer-move frame pushes again, however many frames
follow. -/
theorem history_once_per_gesture :
    (∀ tasks groups selT selG mode e id ty r scale events,
       handleNodeMouseDown tasks groups selT selG mode e id ty = some r →
       countPush (r.effects ++ (runFrames scale r.interaction tasks events).2.2) = 1 ∧
       (r.effects ++ (runFrames scale r.interaction tasks events).2.2).head? =
         some Effect.pushHistory) ∧
    (∀ groups mode e id rr ist scale tasks events,
       handleGroupResizeStart groups mode e id = some rr →
       rr.interaction = some ist →
       countPush (rr.effects ++ (runFrames scale ist tasks events).2.2) = 1 ∧
       (rr.effects ++ (runFrames scale ist tasks events).2.2).head? =
         some Effect.pushHistory) := by
  constructor
  · intro tasks groups selT selG mode e id ty r scale events hdown
    have heff : r.effects = [Effect.pushHistory] := by
      simp only [handleNodeMouseDown] at hdown
      split at hdown
      · exact absurd hdown (by simp)
      · split at hdown
        · exact absurd hdown (by simp)
        · cases hdown
          rfl
    rw [heff]
    refine ⟨?_, rfl⟩
    rw [countPush_append, runFrames_no_push]
    rfl
  · intro groups mode e id rr ist scale tasks events hstart hist
    have heff : rr.effects = [Effect.pushHistory] := by
      simp only [handleGroupResizeStart] at hstart
      split at hstart
      · exact absurd hstart (by simp)
      · split at hstart <;> · cases hstart; rfl
    rw [heff]
    refine ⟨?_, rfl⟩
    rw [countPush_append, runFrames_no_push]
    rfl

/-- A single task at the origin, used by concrete gesture scenarios. -/
def taskA0 : Task := ⟨"A", 0, 0, none, none, none⟩

/-- The DownResult of pressing task A with nothing selected. -/
def downW : DownResult :=
  { selTasks := ["A"]
    selGroups := []
    interaction :=
      { kind := IKind.dragging_node
        startX := 0
        startY := 0
        currentX := 0
        currentY := 0
        targetIds := ["A"]
        primaryId := some "A"
        initialPositions := [("A", (0, 0))]
        draggedChildrenIds := []
        initialChildrenPositions := [] }
    effects := [Effect.pushHistory] }

/-- The interaction state of a resize gesture on group G (400 by 300). -/
def istW : InteractionState :=
  { kind := IKind.resizing_group
    startX := 0
    startY := 0
    currentX := 0
    currentY := 0
    targetIds := ["G"]
    initialPositions := [("G", (400, 300))] }

/-- Witness for C1: a two-frame drag of task A and a one-frame resize of
group G each yield exactly one pushHistory, emitted first. -/
theorem history_once_per_gesture_witness :
    (handleNodeMouseDown [taskA0] [] [] [] IMode.pointer ⟨0, 0, false, 0⟩ "A"
        EntityKind.task = some downW ∧
     countPush (downW.effects ++
       (runFrames 1 downW.interaction [taskA0] [⟨5, 5⟩, ⟨9, 9⟩]).2.2) = 1 ∧
     (downW.effects ++
       (runFrames 1 downW.interaction [taskA0] [⟨5, 5⟩, ⟨9, 9⟩]).2.2).head? =
       some Effect.pushHistory) ∧
    (handleGroupResizeStart [⟨"G", 0, 0, 400, 300⟩] IMode.pointer ⟨0, 0, false, 0⟩ "G" =
        some ⟨some istW, [Effect.pushHistory]⟩ ∧
     countPush (([Effect.pushHistory] : List Effect) ++
       (runFrames 1 istW [taskA0] [⟨5, 5⟩]).2.2) = 1 ∧
     (([Effect.pushHistory] : List Effect) ++
       (runFrames 1 istW [taskA0] [⟨5, 5⟩]).2.2).head? = some Effect.pushHistory) := by
  constructor
  · exact ⟨by decide,
      history_once_per_gesture.1 [taskA0] [] [] [] IMode.pointer ⟨0, 0, false, 0⟩ "A"
        EntityKind.task downW 1 [⟨5, 5⟩, ⟨9, 9⟩] (by decide)⟩
  · exact ⟨by decide,
      history_once_per_gesture.2 [⟨"G", 0, 0, 400, 300⟩] IMode.pointer ⟨0, 0, false, 0⟩ "G"
        ⟨some istW, [Effect.pushHistory]⟩ istW 1 [taskA0] [⟨5, 5⟩] (by decide) rfl⟩

/-- The dragging_node state of the spec's rigid-multi-drag scenario:
A at (0,0) and B at (100,0) both targeted, A grabbed. -/
def stAB : InteractionState :=
  { kind := IKind.dragging_node
    startX := 0
    startY := 0
    targetIds := ["A", "B"]
    primaryId := some "A"
    initialPositions := [("A", (0, 0)), ("B", (100, 0))] }

/-- Claim C5: during a dragging_node frame every targeted entry receives one
identical world delta added to its captured start; concretely, dragging A of
the pair A(0,0), B(100,0) by screen delta (30,30) at scale 1 emits A(30,30)
and B(130,30). -/
theorem rigid_multi_drag :
    (∀ (scale : ℚ) (tasks : List Task) (st : InteractionState) (e : PointerEvt),
      st.kind = IKind.dragging_node →
      ∃ dx dy gfx, (processMouseMove scale tasks st e).effects =
        gfx ++ [Effect.tasksUpdate (st.initialPositions.map
          (fun ent => ⟨ent.1, ent.2.1 + dx, ent.2.2 + dy⟩))]) ∧
    (processMouseMove 1 [⟨"A", 0, 0, none, none, none⟩, ⟨"B", 100, 0, none, none, none⟩]
        stAB ⟨30, 30⟩).effects =
      [Effect.setGuides [], Effect.tasksUpdate [⟨"A", 30, 30⟩, ⟨"B", 130, 30⟩]] := by
  constructor
  · intro scale tasks st e hkind
    rcases st with ⟨k, sX, sY, cX, cY, tIds, pId, iPos, dIds, icPos, csId⟩
    cases hkind
    exact ⟨_, _, _, rfl⟩
  · norm_num [processMouseMove, stAB, nodeSnapAdjust, mapGet, calculateSnap, xCands, yCands,
      siblings, xSnaps, ySnaps, snapStep, snapThreshold, gridSize, gridSnap, jsRound,
      orDefault, List.find?, List.filter, List.flatMap, Option.orElse]

/-- Witness for C5 at the concrete A/B state. -/
theorem rigid_multi_drag_witness :
    stAB.kind = IKind.dragging_node ∧
    ∃ dx dy gfx,
      (processMouseMove 1 [⟨"A", 0, 0, none, none, none⟩, ⟨"B", 100, 0, none, none, none⟩]
          stAB ⟨30, 30⟩).effects =
        gfx ++ [Effect.tasksUpdate (stAB.initialPositions.map
          (fun ent => ⟨ent.1, ent.2.1 + dx, ent.2.2 + dy⟩))] :=
  ⟨rfl, rigid_multi_drag.1 1
    [⟨"A", 0, 0, none, none, none⟩, ⟨"B", 100, 0, none, none, none⟩] stAB ⟨30, 30⟩ rfl⟩

lemma foldl_mapSet_eq_append (ts : List Task) (m : List (String × ℚ × ℚ))
    (hdisj : ∀ t ∈ ts, ∀ ent ∈ m, ent.1 ≠ t.id)
    (hnd : (ts.map Task.id).Nodup) :
    ts.foldl (fun m2 t => mapSet m2 t.id (t.x, t.y)) m
      = m ++ ts.map (fun t => (t.id, (t.x, t.y))) := by
  induction ts generalizing m with
  | nil => simp
  | cons t ts ih =>
    have hnotin : (m.any (fun ent => ent.1 = t.id)) = false := by
      simp only [List.any_eq_false, decide_eq_true_eq]
      intro ent hent
      exact hdisj t (by simp) ent hent
    have hstep : mapSet m t.id (t.x, t.y) = m ++ [(t.id, (t.x, t.y))] := by
      simp [mapSet, hnotin]
    simp only [List.foldl_cons, hstep]
    rw [ih (m ++ [(t.id, (t.x, t.y))]) ?hd ?hn]
    · simp
    case hd =>
      have hnd2 : t.id ∉ ts.map Task.id ∧ (ts.map Task.id).Nodup := by
        rw [List.map_cons, List.nodup_cons] at hnd
        exact hnd
      intro t2 ht2 ent hent
      rcases List.mem_append.1 hent with h | h
      · exact hdisj t2 (List.mem_cons_of_mem _ ht2) ent h
      · simp only [List.mem_singleton] at h
        subst h
        intro he
        have he2 : t.id = t2.id := he
        exact hnd2.1 (by rw [he2]; exact List.mem_map_of_mem Task.id ht2)
    case hn =>
      have hnd2 : t.id ∉ ts.map Task.id ∧ (ts.map Task.id).Nodup := by
        rw [List.map_cons, List.nodup_cons] at hnd
        exact hnd
      exact hnd2.2

lemma group_frame (scale : ℚ) (ts : List Task) (st : InteractionState)
    (e2 : PointerEvt) (hk : st.kind = IKind.dragging_group) :
    processMouseMove scale ts st e2 =
      ⟨st, [Effect.setGuides [],
            Effect.groupsUpdate (st.initialPositions.map (fun ent =>
              PosUpdate.mk ent.1 (ent.2.1 + (e2.clientX - st.startX) / scale)
                (ent.2.2 + (e2.clientY - st.startY) / scale)))] ++
           (if st.initialChildrenPositions.length > 0 then
              [Effect.tasksUpdate (st.initialChildrenPositions.map (fun ent =>
                PosUpdate.mk ent.1 (ent.2.1 + (e2.clientX - st.startX) / scale)
                  (ent.2.2 + (e2.clientY - st.startY) / scale)))]
            else [])⟩ := by
  rcases st with ⟨k, sX, sY, cX, cY, tIds, pId, iPos, dIds, icPos, csId⟩
  cases hk
  rfl

/-- Claim C2: at group-drag start the child set is computed once as the tasks
whose center lies in the group rectangle and is frozen with their starting
positions; every frame then moves group and frozen children by the identical
raw world delta (pointer delta over scale), with no snapping and without
reading the current task list at all (no containment retest). -/
theorem group_drag_frozen_children
    (tasks : List Task) (groups : List Group) (selT selG : List String)
    (e : MouseEvt) (gid : String) (r : DownResult) (g : Group)
    (hdown : handleNodeMouseDown tasks groups selT selG IMode.pointer e gid
      EntityKind.group = some r)
    (hone : groups.filter (fun g2 => r.interaction.targetIds.contains g2.id) = [g])
    (hnd : (tasks.map Task.id).Nodup) :
    r.interaction.draggedChildrenIds = (tasks.filter (childInGroup g)).map Task.id ∧
    r.interaction.initialChildrenPositions =
      (tasks.filter (childInGroup g)).map (fun t => (t.id, (t.x, t.y))) ∧
    ∀ (scale : ℚ) (tasks2 : List Task) (e2 : PointerEvt),
      processMouseMove scale tasks2 r.interaction e2 =
        processMouseMove scale tasks r.interaction e2 ∧
      (processMouseMove scale tasks2 r.interaction e2).interaction = r.interaction ∧
      (processMouseMove scale tasks2 r.interaction e2).effects =
        [Effect.setGuides [],
         Effect.groupsUpdate (r.interaction.initialPositions.map (fun ent =>
           PosUpdate.mk ent.1 (ent.2.1 + (e2.clientX - e.clientX) / scale)
             (ent.2.2 + (e2.clientY - e.clientY) / scale)))] ++
        (if r.interaction.initialChildrenPositions.length > 0 then
           [Effect.tasksUpdate (r.interaction.initialChildrenPositions.map (fun ent =>
             PosUpdate.mk ent.1 (ent.2.1 + (e2.clientX - e.clientX) / scale)
               (ent.2.2 + (e2.clientY - e.clientY) / scale)))]
         else []) := by
  simp only [handleNodeMouseDown] at hdown
  split at hdown
  · exact absurd hdown (by simp)
  · split at hdown
    · exact absurd hdown (by simp)
    · cases hdown
      simp only at hone
      refine ⟨?_, ?_, ?_⟩
      · simp only [hone, List.flatMap_cons, List.flatMap_nil, List.append_nil]
      · simp only [hone, List.foldl_cons, List.foldl_nil]
        exact foldl_mapSet_eq_append (tasks.filter (childInGroup g)) []
          (by simp) (List.Nodup.sublist (List.Sublist.map Task.id (List.filter_sublist tasks)) hnd)
      · intro scale tasks2 e2
        have h1 := group_frame scale tasks2
          { kind := IKind.dragging_group
            startX := e.clientX
            startY := e.clientY
            currentX := e.clientX
            currentY := e.clientY
            targetIds := if selG.contains gid then selG else [gid]
            primaryId := some gid
            initialPositions := (groups.filter (fun g2 =>
              (if selG.contains gid then selG else [gid]).contains g2.id)).foldl
                (fun m g2 => mapSet m g2.id (g2.x, g2.y)) []
            draggedChildrenIds := (groups.filter (fun g2 =>
              (if selG.contains gid then selG else [gid]).contains g2.id)).flatMap
                (fun g2 => (tasks.filter (childInGroup g2)).map Task.id)
            initialChildrenPositions := (groups.filter (fun g2 =>
              (if selG.contains gid then selG else [gid]).contains g2.id)).foldl
                (fun m g2 => (tasks.filter (childInGroup g2)).foldl
                  (fun m2 t => mapSet m2 t.id (t.x, t.y)) m) [] } e2 rfl
        have h2 := group_frame scale tasks
          { kind := IKind.dragging_group
            startX := e.clientX
            startY := e.clientY
            currentX := e.clientX
            currentY := e.clientY
            targetIds := if selG.contains gid then selG else [gid]
            primaryId := some gid
            initialPositions := (groups.filter (fun g2 =>
              (if selG.contains gid then selG else [gid]).contains g2.id)).foldl
                (fun m g2 => mapSet m g2.id (g2.x, g2.y)) []
            draggedChildrenIds := (groups.filter (fun g2 =>
              (if selG.contains gid then selG else [gid]).contains g2.id)).flatMap
                (fun g2 => (tasks.filter (childInGroup g2)).map Task.id)
            initialChildrenPositions := (groups.filter (fun g2 =>
              (if selG.contains gid then selG else [gid]).contains g2.id)).foldl
                (fun m g2 => (tasks.filter (childInGroup g2)).foldl
                  (fun m2 t => mapSet m2 t.id (t.x, t.y)) m) [] } e2 rfl
        exact ⟨h1.trans h2.symm, by rw [h1], by rw [h1]⟩

/-- The C2 scenario from the spec: group G at (0,0,400,300) and task T whose
default-sized rectangle has its center at (100,100). -/
def taskT : Task := ⟨"T", -50, 25, none, none, none⟩

/-- The group of the C2 scenario. -/
def groupG : Group := ⟨"G", 0, 0, 400, 300⟩

/-- The DownResult of grabbing group G with nothing selected: T captured as a
frozen child. -/
def downG : DownResult :=
  { selTasks := []
    selGroups := ["G"]
    interaction :=
      { kind := IKind.dragging_group
        startX := 0
        startY := 0
        currentX := 0
        currentY := 0
        targetIds := ["G"]
        primaryId := some "G"
        initialPositions := [("G", (0, 0))]
        draggedChildrenIds := ["T"]
        initialChildrenPositions := [("T", (-50, 25))] }
    effects := [Effect.pushHistory] }

/-- Witness for C2: grabbing G captures T (center test), and a (50,50) frame
at scale 1 moves G to (50,50) and T by the same raw delta, reading no tasks. -/
theorem group_drag_frozen_children_witness :
    handleNodeMouseDown [taskT] [groupG] [] [] IMode.pointer ⟨0, 0, false, 0⟩ "G"
        EntityKind.group = some downG ∧
    [groupG].filter (fun g2 => downG.interaction.targetIds.contains g2.id) = [groupG] ∧
    ([taskT].map Task.id).Nodup ∧
    downG.interaction.draggedChildrenIds = ([taskT].filter (childInGroup groupG)).map Task.id ∧
    downG.interaction.initialChildrenPositions =
      ([taskT].filter (childInGroup groupG)).map (fun t => (t.id, (t.x, t.y))) ∧
    (processMouseMove 1 [] downG.interaction ⟨50, 50⟩).effects =
      [Effect.setGuides [],
       Effect.groupsUpdate (downG.interaction.initialPositions.map (fun ent =>
         PosUpdate.mk ent.1 (ent.2.1 + (50 - (0:ℚ)) / 1) (ent.2.2 + (50 - (0:ℚ)) / 1)))] ++
      (if downG.interaction.initialChildrenPositions.length > 0 then
         [Effect.tasksUpdate (downG.interaction.initialChildrenPositions.map (fun ent =>
           PosUpdate.mk ent.1 (ent.2.1 + (50 - (0:ℚ)) / 1) (ent.2.2 + (50 - (0:ℚ)) / 1)))]
       else []) := by
  have hdown : handleNodeMouseDown [taskT] [groupG] [] [] IMode.pointer ⟨0, 0, false, 0⟩ "G"
      EntityKind.group = some downG := by
    norm_num [handleNodeMouseDown, taskT, groupG, downG, childInGroup, orDefault, mapSet,
      List.filter, List.flatMap, List.foldl]
    intro h
    exact absurd h (by decide)
  have h := group_drag_frozen_children [taskT] [groupG] [] [] ⟨0, 0, false, 0⟩ "G" downG groupG
    hdown (by decide) (by decide)
  exact ⟨hdown, by decide, by decide, h.1, h.2.1, (h.2.2 1 [] ⟨50, 50⟩).2.2⟩

lemma contains_iff_mem (s : List String) (x : String) : s.contains x = true ↔ x ∈ s := by
  simp

lemma mem_setAdd (s : List String) (x i : String) :
    i ∈ setAdd s x ↔ i ∈ s ∨ i = x := by
  by_cases hx : x ∈ s
  · simp only [setAdd]
    rw [if_pos ((contains_iff_mem s x).2 hx)]
    constructor
    · exact Or.inl
    · rintro (h | rfl)
      · exact h
      · exact hx
  · simp only [setAdd]
    rw [if_neg (fun hc => hx ((contains_iff_mem s x).1 hc))]
    simp

lemma mem_setDel (s : List String) (x i : String) :
    i ∈ setDel s x ↔ i ∈ s ∧ i ≠ x := by
  simp [setDel, List.mem_filter]

lemma setAdd_nodup (s : List String) (x : String) (h : s.Nodup) :
    (setAdd s x).Nodup := by
  by_cases hx : x ∈ s
  · simp only [setAdd]
    rw [if_pos ((contains_iff_mem s x).2 hx)]
    exact h
  · simp only [setAdd]
    rw [if_neg (fun hc => hx ((contains_iff_mem s x).1 hc))]
    simp [List.nodup_append, h, hx]

lemma toggle_mem (s : List String) (j i : String) :
    (i ∈ (if s.contains j then setDel s j else setAdd s j)) ↔
      (if i = j then i ∉ s else i ∈ s) := by
  by_cases hj : j ∈ s
  · rw [if_pos ((contains_iff_mem s j).2 hj), mem_setDel]
    by_cases hij : i = j
    · subst hij
      simp [hj]
    · simp [hij]
  · rw [if_neg (fun hc => hj ((contains_iff_mem s j).1 hc)), mem_setAdd]
    by_cases hij : i = j
    · subst hij
      simp [hj]
    · simp [hij]

lemma xor_fold_mem (inter : List String) :
    ∀ (sel : List String) (i : String), inter.Nodup →
    (i ∈ inter.foldl (fun s j => if s.contains j then setDel s j else setAdd s j) sel ↔
      Xor' (i ∈ sel) (i ∈ inter)) := by
  induction inter with
  | nil =>
    intro sel i _
    simp [Xor']
  | cons j rest ih =>
    intro sel i hnd
    rw [List.nodup_cons] at hnd
    simp only [List.foldl_cons]
    rw [ih _ i hnd.2, toggle_mem sel j i]
    by_cases hij : i = j
    · subst hij
      have hnotr : i ∉ rest := hnd.1
      simp only [if_pos rfl, List.mem_cons, Xor']
      tauto
    · simp only [if_neg hij, List.mem_cons, Xor']
      tauto

lemma marquee_fold_mem (tasks : List Task) (x y w h : ℚ) :
    ∀ (acc : List String) (i : String),
    (i ∈ tasks.foldl (fun acc2 t => if marqueeHits t x y w h then setAdd acc2 t.id else acc2) acc ↔
      i ∈ acc ∨ ∃ t ∈ tasks, t.id = i ∧ marqueeHits t x y w h = true) := by
  induction tasks with
  | nil => intro acc i; simp
  | cons t ts ih =>
    intro acc i
    simp only [List.foldl_cons]
    by_cases hhit : marqueeHits t x y w h
    · rw [if_pos hhit, ih]
      simp only [mem_setAdd, List.mem_cons]
      constructor
      · rintro ((hacc | rfl) | ⟨t2, ht2, rfl, hht2⟩)
        · exact Or.inl hacc
        · exact Or.inr ⟨t, Or.inl rfl, rfl, hhit⟩
        · exact Or.inr ⟨t2, Or.inr ht2, rfl, hht2⟩
      · rintro (hacc | ⟨t2, ht2 | ht2, rfl, hht2⟩)
        · exact Or.inl (Or.inl hacc)
        · exact Or.inl (Or.inr (by rw [ht2]))
        · exact Or.inr ⟨t2, ht2, rfl, hht2⟩
    · rw [if_neg hhit, ih]
      constructor
      · rintro (hacc | ⟨t2, ht2, rfl, hht2⟩)
        · exact Or.inl hacc
        · exact Or.inr ⟨t2, List.mem_cons_of_mem _ ht2, rfl, hht2⟩
      · rintro (hacc | ⟨t2, ht2, rfl, hht2⟩)
        · exact Or.inl hacc
        · rcases List.mem_cons.1 ht2 with rfl | ht2
          · exact absurd hht2 hhit
          · exact Or.inr ⟨t2, ht2, rfl, hht2⟩

lemma marquee_fold_nodup (tasks : List Task) (x y w h : ℚ) :
    ∀ acc : List String, acc.Nodup →
    (tasks.foldl (fun acc2 t => if marqueeHits t x y w h then setAdd acc2 t.id else acc2) acc).Nodup := by
  induction tasks with
  | nil => intro acc hacc; simpa
  | cons t ts ih =>
    intro acc hacc
    simp only [List.foldl_cons]
    by_cases hhit : marqueeHits t x y w h
    · rw [if_pos hhit]
      exact ih _ (setAdd_nodup acc t.id hacc)
    · rw [if_neg hhit]
      exact ih _ hacc

/-- Claim C8: at pointer-up in the selecting state the anchor and release are
converted to world space and normalized (min corner, absolute extents); a
selection change happens only beyond the 5-unit minimum, in which case the
AABB-intersected ids replace the selection, or under shift are XOR-merged
(symmetric difference) into it. -/
theorem marquee_resolution
    (viewport : Viewport) (tasks : List Task) (sel : List String)
    (st : InteractionState) (e : MouseEvt)
    (hk : st.kind = IKind.selecting)
    (x y w h : ℚ)
    (hx : x = min (screenToCanvas viewport st.startX st.startY).x
            (screenToCanvas viewport e.clientX e.clientY).x)
    (hy : y = min (screenToCanvas viewport st.startX st.startY).y
            (screenToCanvas viewport e.clientX e.clientY).y)
    (hw : w = |(screenToCanvas viewport e.clientX e.clientY).x -
            (screenToCanvas viewport st.startX st.startY).x|)
    (hh : h = |(screenToCanvas viewport e.clientX e.clientY).y -
            (screenToCanvas viewport st.startX st.startY).y|)
    (inter : List String)
    (hinter : inter = tasks.foldl
      (fun acc t => if marqueeHits t x y w h then setAdd acc t.id else acc) []) :
    (¬(w > 5 ∨ h > 5) → (handleMouseUp viewport tasks sel st e).selTasks = sel) ∧
    ((w > 5 ∨ h > 5) →
      (∀ i, i ∈ inter ↔ ∃ t ∈ tasks, t.id = i ∧ marqueeHits t x y w h = true) ∧
      (e.shiftKey = false → (handleMouseUp viewport tasks sel st e).selTasks = inter) ∧
      (e.shiftKey = true → ∀ i,
        (i ∈ (handleMouseUp viewport tasks sel st e).selTasks ↔
          Xor' (i ∈ sel) (i ∈ inter)))) := by
  subst hx hy hw hh hinter
  constructor
  · intro hthr
    simp only [handleMouseUp, hk, if_pos]
    rw [if_neg hthr]
  · intro hthr
    refine ⟨?_, ?_, ?_⟩
    · intro i
      simpa using marquee_fold_mem tasks _ _ _ _ [] i
    · intro hshift
      simp only [handleMouseUp, hk, if_pos]
      rw [if_pos hthr]
      simp [hshift]
    · intro hshift i
      simp only [handleMouseUp, hk, if_pos]
      rw [if_pos hthr]
      simp only [hshift, if_pos]
      rw [xor_fold_mem _ sel i (marquee_fold_nodup tasks _ _ _ _ [] List.nodup_nil)]

/-- The selecting state anchored at the origin. -/
def stSel : InteractionState := { kind := IKind.selecting }

/-- Witness for C8: selection {A}, shift-marquee from (0,0) to (200,200) at
identity viewport over tasks A(10,10) and B(50,50) yields selection {B}. -/
theorem marquee_resolution_witness :
    stSel.kind = IKind.selecting ∧
    ((200 : ℚ) > 5 ∨ (200 : ℚ) > 5) ∧
    ((∀ i, i ∈ (["A", "B"] : List String) ↔
        ∃ t ∈ [⟨"A", 10, 10, none, none, none⟩, ⟨"B", 50, 50, none, none, none⟩],
          Task.id t = i ∧ marqueeHits t 0 0 200 200 = true) ∧
     ((⟨200, 200, true, 0⟩ : MouseEvt).shiftKey = false →
       (handleMouseUp ⟨0, 0, 1⟩ [⟨"A", 10, 10, none, none, none⟩, ⟨"B", 50, 50, none, none, none⟩]
         ["A"] stSel ⟨200, 200, true, 0⟩).selTasks = ["A", "B"]) ∧
     ((⟨200, 200, true, 0⟩ : MouseEvt).shiftKey = true → ∀ i,
       (i ∈ (handleMouseUp ⟨0, 0, 1⟩ [⟨"A", 10, 10, none, none, none⟩, ⟨"B", 50, 50, none, none, none⟩]
          ["A"] stSel ⟨200, 200, true, 0⟩).selTasks ↔
         Xor' (i ∈ (["A"] : List String)) (i ∈ (["A", "B"] : List String))))) ∧
    (handleMouseUp ⟨0, 0, 1⟩ [⟨"A", 10, 10, none, none, none⟩, ⟨"B", 50, 50, none, none, none⟩]
      ["A"] stSel ⟨200, 200, true, 0⟩).selTasks = ["B"] := by
  have hB : (handleMouseUp ⟨0, 0, 1⟩
      [⟨"A", 10, 10, none, none, none⟩, ⟨"B", 50, 50, none, none, none⟩]
      ["A"] stSel ⟨200, 200, true, 0⟩).selTasks = ["B"] := by
    norm_num [handleMouseUp, stSel, screenToCanvas, marqueeHits, orDefault, setAdd, setDel,
      List.foldl, List.filter]
  have hmain := marquee_resolution ⟨0, 0, 1⟩
    [⟨"A", 10, 10, none, none, none⟩, ⟨"B", 50, 50, none, none, none⟩]
    ["A"] stSel ⟨200, 200, true, 0⟩ rfl 0 0 200 200
    (by norm_num [screenToCanvas, stSel])
    (by norm_num [screenToCanvas, stSel])
    (by norm_num [screenToCanvas, stSel])
    (by norm_num [screenToCanvas, stSel])
    ["A", "B"]
    (by norm_num [marqueeHits, orDefault, setAdd, List.foldl]
        decide)
  exact ⟨rfl, by norm_num, hmain.2 (by norm_num), hB⟩

lemma foldl_snapStep_char (L : List SnapCand) :
    ∀ s : AxisBest,
    (L.foldl snapStep s = s ∧ ∀ c ∈ L, s.bestD ≤ c.dist) ∨
    (∃ c ∈ L, (L.foldl snapStep s).bestD = c.dist ∧
       (L.foldl snapStep s).best = some (c.val, c.guide) ∧ c.dist < s.bestD ∧
       ∀ c2 ∈ L, (L.foldl snapStep s).bestD ≤ c2.dist) := by
  induction L with
  | nil =>
    intro s
    left
    exact ⟨rfl, by simp⟩
  | cons c L ih =>
    intro s
    by_cases hc : c.dist < s.bestD
    · have hstep : snapStep s c = ⟨c.dist, some (c.val, c.guide)⟩ := by
        simp [snapStep, hc]
      right
      rcases ih (snapStep s c) with ⟨heq, hall⟩ | ⟨c2, hmem, hd, hb, hlt, hall⟩
      · rw [hstep] at heq hall
        refine ⟨c, by simp, ?_, ?_, hc, ?_⟩
        · rw [List.foldl_cons, hstep, heq]
        · rw [List.foldl_cons, hstep, heq]
        · intro c2 hc2
          rcases List.mem_cons.1 hc2 with rfl | hc2
          · rw [List.foldl_cons, hstep, heq]
          · rw [List.foldl_cons, hstep, heq]
            exact hall c2 hc2
      · rw [hstep] at hd hb hlt hall
        have hlt2 : c2.dist < c.dist := hlt
        refine ⟨c2, List.mem_cons_of_mem _ hmem, ?_, ?_, hlt2.trans hc, ?_⟩
        · rw [List.foldl_cons, hstep]
          exact hd
        · rw [List.foldl_cons, hstep]
          exact hb
        · intro c3 hc3
          rcases List.mem_cons.1 hc3 with rfl | hc3
          · rw [List.foldl_cons, hstep, hd]
            exact hlt2.le
          · rw [List.foldl_cons, hstep]
            exact hall c3 hc3
    · have hstep : snapStep s c = s := by
        simp [snapStep, hc]
      rcases ih s with ⟨heq, hall⟩ | ⟨c2, hmem, hd, hb, hlt, hall⟩
      · left
        refine ⟨by rw [List.foldl_cons, hstep, heq], ?_⟩
        intro c2 hc2
        rcases List.mem_cons.1 hc2 with rfl | hc2
        · exact le_of_not_lt hc
        · exact hall c2 hc2
      · right
        refine ⟨c2, List.mem_cons_of_mem _ hmem, ?_, ?_, hlt, ?_⟩
        · rw [List.foldl_cons, hstep]
          exact hd
        · rw [List.foldl_cons, hstep]
          exact hb
        · intro c3 hc3
          rcases List.mem_cons.1 hc3 with rfl | hc3
          · rw [List.foldl_cons, hstep, hd]
            exact hlt.le.trans (le_of_not_lt hc)
          · rw [List.foldl_cons, hstep]
            exact hall c3 hc3

lemma snap_fold_best_none (L : List SnapCand) (t : ℚ)
    (h : ∀ c ∈ L, t + 1 ≤ c.dist) :
    (L.foldl snapStep ⟨t + 1, none⟩).best = none := by
  rcases foldl_snapStep_char L ⟨t + 1, none⟩ with ⟨heq, _⟩ | ⟨c, hmem, _, _, hlt, _⟩
  · rw [heq]
  · exact absurd hlt (not_lt.2 (h c hmem))

lemma snap_fold_best_some (L : List SnapCand) (t : ℚ)
    (h : ∃ c ∈ L, c.dist < t + 1) :
    ∃ c ∈ L, c.dist < t + 1 ∧ (∀ c2 ∈ L, c.dist ≤ c2.dist) ∧
      (L.foldl snapStep ⟨t + 1, none⟩).best = some (c.val, c.guide) := by
  rcases foldl_snapStep_char L ⟨t + 1, none⟩ with ⟨_, hall⟩ | ⟨c, hmem, hd, hb, hlt, hall⟩
  · rcases h with ⟨c, hmem, hlt⟩
    exact absurd hlt (not_lt.2 (hall c hmem))
  · exact ⟨c, hmem, hlt, fun c2 h2 => hd ▸ hall c2 h2, hb⟩

/-- Claim C3 (amended): per axis, calculateSnap returns the value of a
minimum-distance sibling candidate whenever some candidate's distance is
strictly below 12/scale + 1 (not merely within 12/scale: the running best is
initialized to threshold + 1 and improved strictly), and otherwise rounds the
proposed coordinate to the nearest multiple of 10; at scale 1 a left-edge gap
of 11 snaps to equality while a gap of 13 falls to the grid. -/
theorem calculateSnap_char :
    (∀ (tasks : List Task) (targetIds : List String) (id : String)
       (px py w h scale : ℚ),
      ((∃ c ∈ xCands tasks id targetIds px w, c.dist < snapThreshold scale + 1) →
        ∃ c ∈ xCands tasks id targetIds px w,
          c.dist < snapThreshold scale + 1 ∧
          (∀ c2 ∈ xCands tasks id targetIds px w, c.dist ≤ c2.dist) ∧
          (calculateSnap tasks targetIds id px py w h scale).x = c.val) ∧
      ((∀ c ∈ xCands tasks id targetIds px w, snapThreshold scale + 1 ≤ c.dist) →
        (calculateSnap tasks targetIds id px py w h scale).x = gridSnap px) ∧
      ((∃ c ∈ yCands tasks id targetIds py h, c.dist < snapThreshold scale + 1) →
        ∃ c ∈ yCands tasks id targetIds py h,
          c.dist < snapThreshold scale + 1 ∧
          (∀ c2 ∈ yCands tasks id targetIds py h, c.dist ≤ c2.dist) ∧
          (calculateSnap tasks targetIds id px py w h scale).y = c.val) ∧
      ((∀ c ∈ yCands tasks id targetIds py h, snapThreshold scale + 1 ≤ c.dist) →
        (calculateSnap tasks targetIds id px py w h scale).y = gridSnap py)) ∧
    (calculateSnap [⟨"s", 100, 1000, none, none, none⟩] [] "d" 111 0 300 100 1).x = 100 ∧
    (calculateSnap [⟨"s", 100, 1000, none, none, none⟩] [] "d" 113 0 300 100 1).x =
      gridSnap 113 := by
  constructor
  · intro tasks targetIds id px py w h scale
    refine ⟨?_, ?_, ?_, ?_⟩
    · intro hex
      rcases snap_fold_best_some _ (snapThreshold scale) hex with ⟨c, hmem, hlt, hmin, hb⟩
      exact ⟨c, hmem, hlt, hmin, by simp [calculateSnap, hb]⟩
    · intro hall
      have hb := snap_fold_best_none _ (snapThreshold scale) hall
      simp [calculateSnap, hb]
    · intro hex
      rcases snap_fold_best_some _ (snapThreshold scale) hex with ⟨c, hmem, hlt, hmin, hb⟩
      exact ⟨c, hmem, hlt, hmin, by simp [calculateSnap, hb]⟩
    · intro hall
      have hb := snap_fold_best_none _ (snapThreshold scale) hall
      simp [calculateSnap, hb]
  · have hsib : siblings [⟨"s", 100, 1000, none, none, none⟩] "d" [] =
        [⟨"s", 100, 1000, none, none, none⟩] := by decide
    constructor
    · have hl111 : xCands [⟨"s", 100, 1000, none, none, none⟩] "d" [] 111 300 =
          [⟨100, 100, 11⟩, ⟨-200, 100, 311⟩, ⟨400, 400, 289⟩, ⟨100, 400, 11⟩,
           ⟨100, 250, 11⟩] := by
        unfold xCands
        rw [hsib]
        norm_num [xSnaps, orDefault, List.flatMap]
      obtain ⟨c, hmem, hlt, hmin, hb⟩ := snap_fold_best_some
        (xCands [⟨"s", 100, 1000, none, none, none⟩] "d" [] 111 300) (snapThreshold 1)
        (by
          rw [hl111]
          exact ⟨⟨100, 100, 11⟩, by simp, by norm_num [snapThreshold]⟩)
      have hx : (calculateSnap [⟨"s", 100, 1000, none, none, none⟩] [] "d"
          111 0 300 100 1).x = c.val := by
        simp [calculateSnap, hb]
      have hcval : c.val = 100 := by
        rw [hl111] at hmem hmin
        have h1 := hmin ⟨100, 100, 11⟩ (by simp)
        simp only [List.mem_cons, List.not_mem_nil, or_false] at hmem
        rcases hmem with rfl | rfl | rfl | rfl | rfl
        · rfl
        · norm_num at h1
        · norm_num at h1
        · rfl
        · rfl
      rw [hx, hcval]
    · have hl113 : xCands [⟨"s", 100, 1000, none, none, none⟩] "d" [] 113 300 =
          [⟨100, 100, 13⟩, ⟨-200, 100, 313⟩, ⟨400, 400, 287⟩, ⟨100, 400, 13⟩,
           ⟨100, 250, 13⟩] := by
        unfold xCands
        rw [hsib]
        norm_num [xSnaps, orDefault, List.flatMap]
      have hb := snap_fold_best_none
        (xCands [⟨"s", 100, 1000, none, none, none⟩] "d" [] 113 300) (snapThreshold 1)
        (by
          rw [hl113]
          intro c hc
          simp only [List.mem_cons, List.not_mem_nil, or_false] at hc
          rcases hc with rfl | rfl | rfl | rfl | rfl <;> norm_num [snapThreshold])
      simp [calculateSnap, hb]

/-- Counterexample for C3 as stated: at scale 1 the sibling's left edge is
12.5 world units away — beyond the 12-unit threshold — yet calculateSnap
still snaps to it (100) instead of the grid fallback (110), because the
acceptance bound is threshold + 1. -/
theorem calculateSnap_threshold_violated :
    (∀ c ∈ xCands [⟨"s", 100, 1000, none, none, none⟩] "d" [] (225 / 2) 50,
      snapThreshold 1 < c.dist) ∧
    (calculateSnap [⟨"s", 100, 1000, none, none, none⟩] [] "d" (225 / 2) 0 50 50 1).x = 100 ∧
    gridSnap (225 / 2) = 110 ∧
    (calculateSnap [⟨"s", 100, 1000, none, none, none⟩] [] "d" (225 / 2) 0 50 50 1).x ≠
      gridSnap (225 / 2) := by
  have hsib : siblings [⟨"s", 100, 1000, none, none, none⟩] "d" [] =
      [⟨"s", 100, 1000, none, none, none⟩] := by decide
  have hl : xCands [⟨"s", 100, 1000, none, none, none⟩] "d" [] (225 / 2) 50 =
      [⟨100, 100, 25 / 2⟩, ⟨50, 100, 125 / 2⟩, ⟨400, 400, 575 / 2⟩,
       ⟨350, 400, 475 / 2⟩, ⟨225, 250, 225 / 2⟩] := by
    unfold xCands
    rw [hsib]
    norm_num [xSnaps, orDefault, List.flatMap]
  have hgrid : gridSnap ((225 : ℚ) / 2) = 110 := by
    norm_num [gridSnap, gridSize, jsRound]
  have hx : (calculateSnap [⟨"s", 100, 1000, none, none, none⟩] [] "d"
      (225 / 2) 0 50 50 1).x = 100 := by
    obtain ⟨c, hmem, hlt, hmin, hb⟩ := snap_fold_best_some
      (xCands [⟨"s", 100, 1000, none, none, none⟩] "d" [] (225 / 2) 50) (snapThreshold 1)
      (by
        rw [hl]
        exact ⟨⟨100, 100, 25 / 2⟩, by simp, by norm_num [snapThreshold]⟩)
    have hx2 : (calculateSnap [⟨"s", 100, 1000, none, none, none⟩] [] "d"
        (225 / 2) 0 50 50 1).x = c.val := by
      simp [calculateSnap, hb]
    have hcval : c.val = 100 := by
      rw [hl] at hmem hmin
      have h1 := hmin ⟨100, 100, 25 / 2⟩ (by simp)
      simp only [List.mem_cons, List.not_mem_nil, or_false] at hmem
      rcases hmem with rfl | rfl | rfl | rfl | rfl
      · rfl
      · norm_num at h1
      · norm_num at h1
      · norm_num at h1
      · norm_num at h1
    rw [hx2, hcval]
  refine ⟨?_, hx, hgrid, ?_⟩
  · rw [hl]
    intro c hc
    simp only [List.mem_cons, List.not_mem_nil, or_false] at hc
    rcases hc with rfl | rfl | rfl | rfl | rfl <;> norm_num [snapThreshold]
  · rw [hx, hgrid]
    norm_num

/-- Witness for C3 at the 11-unit-gap configuration: the x-axis candidate set
contains a candidate within the bound, and the theorem yields a minimal
candidate whose value calculateSnap returns. -/
theorem calculateSnap_char_witness :
    (∃ c ∈ xCands [⟨"s", 100, 1000, none, none, none⟩] "d" [] 111 300,
      c.dist < snapThreshold 1 + 1) ∧
    (∃ c ∈ xCands [⟨"s", 100, 1000, none, none, none⟩] "d" [] 111 300,
      c.dist < snapThreshold 1 + 1 ∧
      (∀ c2 ∈ xCands [⟨"s", 100, 1000, none, none, none⟩] "d" [] 111 300, c.dist ≤ c2.dist) ∧
      (calculateSnap [⟨"s", 100, 1000, none, none, none⟩] [] "d" 111 0 300 100 1).x = c.val) := by
  have hsib : siblings [⟨"s", 100, 1000, none, none, none⟩] "d" [] =
      [⟨"s", 100, 1000, none, none, none⟩] := by decide
  have hl : xCands [⟨"s", 100, 1000, none, none, none⟩] "d" [] 111 300 =
      [⟨100, 100, 11⟩, ⟨-200, 100, 311⟩, ⟨400, 400, 289⟩, ⟨100, 400, 11⟩, ⟨100, 250, 11⟩] := by
    unfold xCands
    rw [hsib]
    norm_num [xSnaps, orDefault, List.flatMap]
  have hex : ∃ c ∈ xCands [⟨"s", 100, 1000, none, none, none⟩] "d" [] 111 300,
      c.dist < snapThreshold 1 + 1 := by
    rw [hl]
    refine ⟨⟨100, 100, 11⟩, by simp, ?_⟩
    norm_num [snapThreshold]
  exact ⟨hex,
    (calculateSnap_char.1 [⟨"s", 100, 1000, none, none, none⟩] [] "d" 111 0 300 100 1).1 hex⟩

/-- A dragging_node state with two targeted tasks, A grabbed. -/
def stC4 : InteractionState :=
  { kind := IKind.dragging_node
    startX := 0
    startY := 0
    targetIds := ["A", "B"]
    primaryId := some "A"
    initialPositions := [("A", (0, 0)), ("B", (1000, 0))] }

/-- Task list for the multi-drag scenario: the targets A and B plus the
non-dragged sibling S at the origin. -/
def tasksC4 : List Task :=
  [⟨"A", 0, 0, none, none, none⟩, ⟨"B", 1000, 0, none, none, none⟩,
   ⟨"S", 0, 0, none, none, none⟩]

/-- Counterexample for C4 as stated: with two entities targeted, a frame at
raw delta (11,0) still snaps against sibling S — the emitted positions are the
snapped ones (A stays at 0, not the raw 11) and the guides are emitted, not
cleared. -/
theorem multi_drag_snapping_counterexample :
    stC4.targetIds.length = 2 ∧
    (processMouseMove 1 tasksC4 stC4 ⟨11, 0⟩).effects =
      [Effect.setGuides [⟨GuideDir.vertical, 0⟩, ⟨GuideDir.horizontal, 0⟩],
       Effect.tasksUpdate [⟨"A", 0, 0⟩, ⟨"B", 1000, 0⟩]] ∧
    (0 : ℚ) ≠ 0 + (11 - 0) / 1 := by
  refine ⟨rfl, ?_, by norm_num⟩
  norm_num [processMouseMove, stC4, tasksC4, nodeSnapAdjust, mapGet, calculateSnap,
    xCands, yCands, siblings, xSnaps, ySnaps, snapStep, snapThreshold, orDefault,
    gridSnap, gridSize, jsRound, List.find?, List.filter, List.flatMap, List.foldl,
    Option.orElse]

/-- Claim C4 (amended): during a dragging_node frame, snapping is computed
from the primary grabbed node and applied to the shared delta — and the snap
guides are emitted — whenever the primary resolves to a captured start
position and an existing task, regardless of how many entities are targeted;
guides are cleared (with the raw delta kept) only when it does not. -/
theorem snap_applies_regardless_of_target_count
    (scale : ℚ) (tasks : List Task) (st : InteractionState) (e : PointerEvt)
    (p : String) (sp : ℚ × ℚ) (task : Task)
    (hkind : st.kind = IKind.dragging_node)
    (hp : st.primaryId = some p)
    (hsp : mapGet st.initialPositions p = some sp)
    (hfind : tasks.find? (fun t => t.id = p) = some task) :
    (processMouseMove scale tasks st e).effects =
      [Effect.setGuides (calculateSnap tasks st.targetIds p
          (sp.1 + (e.clientX - st.startX) / scale) (sp.2 + (e.clientY - st.startY) / scale)
          (orDefault task.width 300) (orDefault task.height 100) scale).guides,
       Effect.tasksUpdate (st.initialPositions.map (fun ent =>
         ⟨ent.1,
          ent.2.1 + ((calculateSnap tasks st.targetIds p
            (sp.1 + (e.clientX - st.startX) / scale) (sp.2 + (e.clientY - st.startY) / scale)
            (orDefault task.width 300) (orDefault task.height 100) scale).x - sp.1),
          ent.2.2 + ((calculateSnap tasks st.targetIds p
            (sp.1 + (e.clientX - st.startX) / scale) (sp.2 + (e.clientY - st.startY) / scale)
            (orDefault task.width 300) (orDefault task.height 100) scale).y - sp.2)⟩))] := by
  rcases st with ⟨k, sX, sY, cX, cY, tIds, pId, iPos, dIds, icPos, csId⟩
  cases hkind
  simp only at hp hsp
  subst hp
  simp [processMouseMove, nodeSnapAdjust, Option.orElse, hsp, hfind]

/-- Witness for C4 at the two-target state stC4 over tasksC4. -/
theorem snap_applies_regardless_of_target_count_witness :
    (stC4.kind = IKind.dragging_node ∧
     stC4.primaryId = some "A" ∧
     mapGet stC4.initialPositions "A" = some (0, 0) ∧
     tasksC4.find? (fun t => t.id = "A") = some ⟨"A", 0, 0, none, none, none⟩) ∧
    (processMouseMove 1 tasksC4 stC4 ⟨11, 0⟩).effects =
      [Effect.setGuides (calculateSnap tasksC4 stC4.targetIds "A"
          (((0 : ℚ), (0 : ℚ)).1 + (11 - stC4.startX) / 1)
          (((0 : ℚ), (0 : ℚ)).2 + (0 - stC4.startY) / 1)
          (orDefault none 300) (orDefault none 100) 1).guides,
       Effect.tasksUpdate (stC4.initialPositions.map (fun ent =>
         ⟨ent.1,
          ent.2.1 + ((calculateSnap tasksC4 stC4.targetIds "A"
            (((0 : ℚ), (0 : ℚ)).1 + (11 - stC4.startX) / 1)
            (((0 : ℚ), (0 : ℚ)).2 + (0 - stC4.startY) / 1)
            (orDefault none 300) (orDefault none 100) 1).x - ((0 : ℚ), (0 : ℚ)).1),
          ent.2.2 + ((calculateSnap tasksC4 stC4.targetIds "A"
            (((0 : ℚ), (0 : ℚ)).1 + (11 - stC4.startX) / 1)
            (((0 : ℚ), (0 : ℚ)).2 + (0 - stC4.startY) / 1)
            (orDefault none 300) (orDefault none 100) 1).y - ((0 : ℚ), (0 : ℚ)).2)⟩))] :=
  ⟨⟨rfl, rfl, by decide, by decide⟩,
   snap_applies_regardless_of_target_count 1 tasksC4 stC4 ⟨11, 0⟩ "A" (0, 0)
     ⟨"A", 0, 0, none, none, none⟩ rfl rfl (by decide) (by decide)⟩

lemma getLast?_mem2 {α : Type _} {l : List α} {a : α} (h : l.getLast? = some a) : a ∈ l := by
  cases l with
  | nil => exact absurd h (by simp)
  | cons b t =>
    rw [List.getLast?_eq_getLast_of_ne_nil (by simp), Option.some.injEq] at h
    rw [← h]
    exact List.getLast_mem (by simp)

/-- Two task lists agree except possibly on the positions of the listed ids:
pointwise, every field other than x and y matches, and x and y match for
tasks whose id is outside the set. -/
def agreesOutside (ids : List String) : List Task → List Task → Prop
  | [], [] => True
  | t :: ts, t2 :: ts2 =>
    t.id = t2.id ∧ t.width = t2.width ∧ t.height = t2.height ∧ t.parentId = t2.parentId ∧
    (ids.contains t.id = false → t.x = t2.x ∧ t.y = t2.y) ∧ agreesOutside ids ts ts2
  | _, _ => False

lemma agreesOutside_refl (ids : List String) : ∀ ts, agreesOutside ids ts ts := by
  intro ts
  induction ts with
  | nil => trivial
  | cons t ts ih => exact ⟨rfl, rfl, rfl, rfl, fun _ => ⟨rfl, rfl⟩, ih⟩

lemma agreesOutside_trans (ids : List String) :
    ∀ ts1 ts2 ts3, agreesOutside ids ts1 ts2 → agreesOutside ids ts2 ts3 →
      agreesOutside ids ts1 ts3 := by
  intro ts1
  induction ts1 with
  | nil =>
    intro ts2 ts3 h12 h23
    cases ts2 with
    | nil =>
      cases ts3 with
      | nil => trivial
      | cons t3 ts3 => exact h23.elim
    | cons t2 ts2 => exact h12.elim
  | cons t1 ts1 ih =>
    intro ts2 ts3 h12 h23
    cases ts2 with
    | nil => exact h12.elim
    | cons t2 ts2 =>
      cases ts3 with
      | nil => exact h23.elim
      | cons t3 ts3 =>
        obtain ⟨hid, hw, hh, hp, hxy, hrest⟩ := h12
        obtain ⟨hid2, hw2, hh2, hp2, hxy2, hrest2⟩ := h23
        refine ⟨hid.trans hid2, hw.trans hw2, hh.trans hh2, hp.trans hp2, ?_,
          ih ts2 ts3 hrest hrest2⟩
        intro hni
        have hni2 : ids.contains t2.id = false := hid ▸ hni
        exact ⟨(hxy hni).1.trans (hxy2 hni2).1, (hxy hni).2.trans (hxy2 hni2).2⟩

lemma applyTasksUpdate_agrees (ids : List String) (us : List PosUpdate)
    (hus : ∀ u ∈ us, ids.contains u.id = true) :
    ∀ ts, agreesOutside ids ts (applyTasksUpdate ts us) := by
  intro ts
  induction ts with
  | nil => trivial
  | cons t ts ih =>
    show agreesOutside ids (t :: ts)
      ((match (us.filter (fun u => u.id = t.id)).getLast? with
        | some u => { t with x := u.x, y := u.y }
        | none => t) :: applyTasksUpdate ts us)
    cases hf : (us.filter (fun u => u.id = t.id)).getLast? with
    | none =>
      exact ⟨rfl, rfl, rfl, rfl, fun _ => ⟨rfl, rfl⟩, ih⟩
    | some u =>
      refine ⟨rfl, rfl, rfl, rfl, ?_, ih⟩
      intro hni
      have hu := List.mem_filter.1 (getLast?_mem2 hf)
      have huid : u.id = t.id := by simpa using hu.2
      have := hus u hu.1
      rw [huid, hni] at this
      exact absurd this (by simp)

lemma find?_agrees (ids : List String) (p : String) :
    ∀ ts ts2, agreesOutside ids ts ts2 →
    (ts.find? (fun t => t.id = p) = none ∧ ts2.find? (fun t => t.id = p) = none) ∨
    (∃ t t2, ts.find? (fun t => t.id = p) = some t ∧
      ts2.find? (fun t => t.id = p) = some t2 ∧
      t.width = t2.width ∧ t.height = t2.height) := by
  intro ts
  induction ts with
  | nil =>
    intro ts2 h
    cases ts2 with
    | nil => exact Or.inl ⟨rfl, rfl⟩
    | cons t2 ts2 => exact h.elim
  | cons t ts ih =>
    intro ts2 h
    cases ts2 with
    | nil => exact h.elim
    | cons t2 ts2 =>
      obtain ⟨hid, hw, hh, hp, hxy, hrest⟩ := h
      by_cases hpt : t.id = p
      · exact Or.inr ⟨t, t2,
          List.find?_cons_of_pos _ (by simp [hpt]),
          List.find?_cons_of_pos _ (by simp [← hid, hpt]), hw, hh⟩
      · rw [List.find?_cons_of_neg _ (by simp [hpt]),
          List.find?_cons_of_neg _ (by simp [← hid, hpt])]
        exact ih ts2 hrest

lemma xSnaps_congr (px w : ℚ) (t t2 : Task) (hx : t.x = t2.x) (hw : t.width = t2.width) :
    xSnaps px w t = xSnaps px w t2 := by
  simp [xSnaps, hx, hw]

lemma ySnaps_congr (py h : ℚ) (t t2 : Task) (hy : t.y = t2.y) (hh : t.height = t2.height) :
    ySnaps py h t = ySnaps py h t2 := by
  simp [ySnaps, hy, hh]

lemma siblings_agree (idd : String) (targetIds ids : List String)
    (hsub : ∀ s2, ids.contains s2 = true → targetIds.contains s2 = true) :
    ∀ ts ts2, agreesOutside ids ts ts2 →
    List.Forall₂
      (fun t t2 => t.x = t2.x ∧ t.y = t2.y ∧ t.width = t2.width ∧ t.height = t2.height)
      (siblings ts idd targetIds) (siblings ts2 idd targetIds) := by
  intro ts
  induction ts with
  | nil =>
    intro ts2 h
    cases ts2 with
    | nil => exact List.Forall₂.nil
    | cons t2 ts2 => exact h.elim
  | cons t ts ih =>
    intro ts2 h
    cases ts2 with
    | nil => exact h.elim
    | cons t2 ts2 =>
      obtain ⟨hid, hw, hh, hp, hxy, hrest⟩ := h
      have htail := ih ts2 hrest
      simp only [siblings, List.filter_cons]
      by_cases hcp : t.id ≠ idd ∧ ¬ targetIds.contains t.id
      · have hidsf : ids.contains t.id = false := by
          cases hq : ids.contains t.id
          · rfl
          · exact absurd (hsub _ hq) hcp.2
        obtain ⟨hx3, hy3⟩ := hxy hidsf
        rw [if_pos (by simpa using hcp), if_pos (by simpa [← hid] using hcp)]
        exact List.Forall₂.cons ⟨hx3, hy3, hw, hh⟩ htail
      · rw [if_neg (by simpa using hcp), if_neg (by simpa [← hid] using hcp)]
        exact htail

lemma xCands_agrees (idd : String) (targetIds ids : List String) (px w : ℚ)
    (hsub : ∀ s2, ids.contains s2 = true → targetIds.contains s2 = true)
    (ts ts2 : List Task) (hag : agreesOutside ids ts ts2) :
    xCands ts idd targetIds px w = xCands ts2 idd targetIds px w := by
  have hsib := siblings_agree idd targetIds ids hsub ts ts2 hag
  unfold xCands
  revert hsib
  generalize siblings ts idd targetIds = l1
  generalize siblings ts2 idd targetIds = l2
  intro hsib
  induction hsib with
  | nil => rfl
  | cons hab htl ihf =>
    simp only [List.flatMap_cons]
    rw [xSnaps_congr px w _ _ hab.1 hab.2.2.1, ihf]

lemma yCands_agrees (idd : String) (targetIds ids : List String) (py h : ℚ)
    (hsub : ∀ s2, ids.contains s2 = true → targetIds.contains s2 = true)
    (ts ts2 : List Task) (hag : agreesOutside ids ts ts2) :
    yCands ts idd targetIds py h = yCands ts2 idd targetIds py h := by
  have hsib := siblings_agree idd targetIds ids hsub ts ts2 hag
  unfold yCands
  revert hsib
  generalize siblings ts idd targetIds = l1
  generalize siblings ts2 idd targetIds = l2
  intro hsib
  induction hsib with
  | nil => rfl
  | cons hab htl ihf =>
    simp only [List.flatMap_cons]
    rw [ySnaps_congr py h _ _ hab.2.1 hab.2.2.2, ihf]

lemma calculateSnap_agrees (idd : String) (targetIds ids : List String)
    (px py w h scale : ℚ)
    (hsub : ∀ s2, ids.contains s2 = true → targetIds.contains s2 = true)
    (ts ts2 : List Task) (hag : agreesOutside ids ts ts2) :
    calculateSnap ts targetIds idd px py w h scale =
      calculateSnap ts2 targetIds idd px py w h scale := by
  unfold calculateSnap
  rw [xCands_agrees idd targetIds ids px w hsub ts ts2 hag,
    yCands_agrees idd targetIds ids py h hsub ts ts2 hag]

lemma nodeSnapAdjust_agrees (scale : ℚ) (st : InteractionState) (e : PointerEvt)
    (ts ts2 : List Task)
    (hag : agreesOutside (st.initialPositions.map Prod.fst) ts ts2)
    (hsub : ∀ s2, (st.initialPositions.map Prod.fst).contains s2 = true →
      st.targetIds.contains s2 = true) :
    nodeSnapAdjust scale ts st e = nodeSnapAdjust scale ts2 st e := by
  cases hpm : st.primaryId.orElse (fun _ => st.targetIds.head?) with
  | none => simp [nodeSnapAdjust, hpm]
  | some p =>
    cases hsp : mapGet st.initialPositions p with
    | none => simp [nodeSnapAdjust, hpm, hsp]
    | some sp =>
      rcases find?_agrees (st.initialPositions.map Prod.fst) p ts ts2 hag with
        ⟨hn1, hn2⟩ | ⟨t, t2, hf1, hf2, hw, hh⟩
      · simp [nodeSnapAdjust, hpm, hsp, hn1, hn2]
      · have hcs := calculateSnap_agrees p st.targetIds (st.initialPositions.map Prod.fst)
          (sp.1 + (e.clientX - st.startX) / scale) (sp.2 + (e.clientY - st.startY) / scale)
          (orDefault t2.width 300) (orDefault t2.height 100) scale hsub ts ts2 hag
        simp only [nodeSnapAdjust, hpm, hsp, hf1, hf2, hw, hh, hcs]

lemma node_frame_eq (scale : ℚ) (ts : List Task) (st : InteractionState) (e : PointerEvt)
    (hk : st.kind = IKind.dragging_node) :
    processMouseMove scale ts st e =
      ⟨st, (nodeSnapAdjust scale ts st e).2 ++
        [Effect.tasksUpdate (st.initialPositions.map (fun ent =>
          ⟨ent.1, ent.2.1 + (nodeSnapAdjust scale ts st e).1.1,
                  ent.2.2 + (nodeSnapAdjust scale ts st e).1.2⟩))]⟩ := by
  rcases st with ⟨k, sX, sY, cX, cY, tIds, pId, iPos, dIds, icPos, csId⟩
  cases hk
  rfl

lemma node_frame_agrees (scale : ℚ) (st : InteractionState) (e : PointerEvt)
    (ts ts2 : List Task) (hk : st.kind = IKind.dragging_node)
    (hag : agreesOutside (st.initialPositions.map Prod.fst) ts ts2)
    (hsub : ∀ s2, (st.initialPositions.map Prod.fst).contains s2 = true →
      st.targetIds.contains s2 = true) :
    processMouseMove scale ts st e = processMouseMove scale ts2 st e := by
  rw [node_frame_eq scale ts st e hk, node_frame_eq scale ts2 st e hk,
    nodeSnapAdjust_agrees scale st e ts ts2 hag hsub]

lemma frame_updates_sub (scale : ℚ) (ts : List Task) (st : InteractionState)
    (e : PointerEvt) (hk : st.kind = IKind.dragging_node) :
    ∀ us, Effect.tasksUpdate us ∈ (processMouseMove scale ts st e).effects →
      ∀ u ∈ us, (st.initialPositions.map Prod.fst).contains u.id = true := by
  rw [node_frame_eq scale ts st e hk]
  intro us hmem u hu
  rcases List.mem_append.1 hmem with hmem | hmem
  · rcases nodeSnapAdjust_snd_shape scale ts st e with hsh | ⟨gl, hsh⟩ <;>
      rw [hsh] at hmem <;> simp at hmem
  · simp only [List.mem_singleton] at hmem
    injection hmem with hus
    subst hus
    obtain ⟨ent, hent, rfl⟩ := List.mem_map.1 hu
    exact (contains_iff_mem _ _).2 (List.mem_map_of_mem Prod.fst hent)

lemma applyFrameEffects_agrees (ids : List String) :
    ∀ (effects : List Effect) (ts : List Task),
    (∀ us, Effect.tasksUpdate us ∈ effects → ∀ u ∈ us, ids.contains u.id = true) →
    agreesOutside ids ts (applyFrameEffects ts effects) := by
  intro effects
  induction effects with
  | nil =>
    intro ts _
    exact agreesOutside_refl ids ts
  | cons ef effs ih =>
    intro ts hsafe
    cases ef with
    | tasksUpdate us =>
      have h1 : agreesOutside ids ts (applyTasksUpdate ts us) :=
        applyTasksUpdate_agrees ids us (hsafe us (by simp)) ts
      have h2 := ih (applyTasksUpdate ts us)
        (fun us2 hmem => hsafe us2 (List.mem_cons_of_mem _ hmem))
      exact agreesOutside_trans ids _ _ _ h1 h2
    | pushHistory => exact ih ts (fun us2 hmem => hsafe us2 (List.mem_cons_of_mem _ hmem))
    | groupsUpdate us => exact ih ts (fun us2 hmem => hsafe us2 (List.mem_cons_of_mem _ hmem))
    | groupResize gid2 w2 h2 =>
      exact ih ts (fun us2 hmem => hsafe us2 (List.mem_cons_of_mem _ hmem))
    | setGuides gl => exact ih ts (fun us2 hmem => hsafe us2 (List.mem_cons_of_mem _ hmem))
    | viewportPan dx dy =>
      exact ih ts (fun us2 hmem => hsafe us2 (List.mem_cons_of_mem _ hmem))

lemma runFrames_node (scale : ℚ) (st : InteractionState)
    (hk : st.kind = IKind.dragging_node) :
    ∀ (es : List PointerEvt) (ts : List Task),
    (runFrames scale st ts es).1 = st ∧
    agreesOutside (st.initialPositions.map Prod.fst) ts (runFrames scale st ts es).2.1 := by
  intro es
  induction es with
  | nil =>
    intro ts
    exact ⟨rfl, agreesOutside_refl _ ts⟩
  | cons e es ih =>
    intro ts
    have hfr : (processMouseMove scale ts st e).interaction = st := by
      rw [node_frame_eq scale ts st e hk]
    simp only [runFrames, hfr]
    refine ⟨(ih _).1, ?_⟩
    refine agreesOutside_trans _ _ _ _
      (applyFrameEffects_agrees _ (processMouseMove scale ts st e).effects ts ?_)
      (ih (applyFrameEffects ts (processMouseMove scale ts st e).effects)).2
    exact frame_updates_sub scale ts st e hk

lemma runFrames_node_snoc (scale : ℚ) (st : InteractionState)
    (hk : st.kind = IKind.dragging_node) :
    ∀ (es : List PointerEvt) (ts : List Task) (e : PointerEvt),
    (runFrames scale st ts (es ++ [e])).2.1 =
      applyFrameEffects ((runFrames scale st ts es).2.1)
        (processMouseMove scale ((runFrames scale st ts es).2.1) st e).effects := by
  intro es
  induction es with
  | nil =>
    intro ts e
    rfl
  | cons e1 es ih =>
    intro ts e
    have hfr : (processMouseMove scale ts st e1).interaction = st := by
      rw [node_frame_eq scale ts st e1 hk]
    rw [List.cons_append]
    simp only [runFrames, hfr]
    exact ih (applyFrameEffects ts (processMouseMove scale ts st e1).effects) e

lemma applyTasksUpdate_eq_of_agrees (ids : List String) (us : List PosUpdate)
    (hcov : ∀ s2, ids.contains s2 = true → ∃ u ∈ us, u.id = s2) :
    ∀ ts T1 T2, agreesOutside ids ts T1 → agreesOutside ids ts T2 →
      applyTasksUpdate T1 us = applyTasksUpdate T2 us := by
  intro ts
  induction ts with
  | nil =>
    intro T1 T2 h1 h2
    cases T1 with
    | nil =>
      cases T2 with
      | nil => rfl
      | cons t2 T2 => exact h2.elim
    | cons t1 T1 => exact h1.elim
  | cons t ts ih =>
    intro T1 T2 h1 h2
    cases T1 with
    | nil => exact h1.elim
    | cons t1 T1 =>
      cases T2 with
      | nil => exact h2.elim
      | cons t2 T2 =>
        obtain ⟨hid1, hw1, hh1, hp1, hxy1, hr1⟩ := h1
        obtain ⟨hid2, hw2, hh2, hp2, hxy2, hr2⟩ := h2
        have htail : applyTasksUpdate T1 us = applyTasksUpdate T2 us := ih T1 T2 hr1 hr2
        have hid12 : t1.id = t2.id := hid1.symm.trans hid2
        show (match (us.filter (fun u => u.id = t1.id)).getLast? with
            | some u => { t1 with x := u.x, y := u.y }
            | none => t1) :: applyTasksUpdate T1 us =
          (match (us.filter (fun u => u.id = t2.id)).getLast? with
            | some u => { t2 with x := u.x, y := u.y }
            | none => t2) :: applyTasksUpdate T2 us
        rw [htail, ← hid12]
        cases hf : (us.filter (fun u => u.id = t1.id)).getLast? with
        | some u =>
          have hhead : Task.mk t1.id u.x u.y t1.width t1.height t1.parentId =
              Task.mk t1.id u.x u.y t2.width t2.height t2.parentId := by
            rw [hw1.symm.trans hw2, hh1.symm.trans hh2, hp1.symm.trans hp2]
          exact congrArg (fun z => z :: applyTasksUpdate T2 us) hhead
        | none =>
          have hnone : ∀ u ∈ us, u.id ≠ t1.id := by
            intro u humem hue
            have : us.filter (fun u => u.id = t1.id) = [] :=
              List.getLast?_eq_none_iff.1 hf
            have : u ∈ ([] : List PosUpdate) := by
              rw [← this]
              exact List.mem_filter.2 ⟨humem, by simp [hue]⟩
            simp at this
          have hni : ids.contains t.id = false := by
            cases hq : ids.contains t.id
            · rfl
            · obtain ⟨u, humem, hus⟩ := hcov t.id hq
              exact absurd (hus.trans hid1) (hnone u humem)
          have hhead : t1 = t2 := by
            obtain ⟨hx1, hy1⟩ := hxy1 hni
            obtain ⟨hx2, hy2⟩ := hxy2 hni
            rcases t1 with ⟨i1, x1, y1, w1, g1, p1⟩
            rcases t2 with ⟨i2, x2, y2, w2, g2, p2⟩
            simp only at hid12 hw1 hw2 hh1 hh2 hp1 hp2 hx1 hy1 hx2 hy2
            simp [hid12, hw1.symm.trans hw2, hh1.symm.trans hh2, hp1.symm.trans hp2,
              hx1.symm.trans hx2, hy1.symm.trans hy2]
          exact congrArg (fun z => z :: applyTasksUpdate T2 us) hhead

lemma applyFrameEffects_node_frame (scale : ℚ) (ts : List Task) (st : InteractionState)
    (e : PointerEvt) (Ti : List Task) (hk : st.kind = IKind.dragging_node) :
    applyFrameEffects Ti (processMouseMove scale ts st e).effects =
      applyTasksUpdate Ti (st.initialPositions.map (fun ent =>
        ⟨ent.1, ent.2.1 + (nodeSnapAdjust scale ts st e).1.1,
                ent.2.2 + (nodeSnapAdjust scale ts st e).1.2⟩)) := by
  rw [node_frame_eq scale ts st e hk]
  rcases nodeSnapAdjust_snd_shape scale ts st e with hsh | ⟨gl, hsh⟩ <;> rw [hsh] <;> rfl

/-- Claim C10: for a fixed dragging_node gesture snapshot, each frame
recomputes from the frozen initial positions, so the frame emitted for a
pointer event after any prefix of intermediate frames equals the frame
computed on the initial task list, and two runs whose final events coincide
end with identical task lists; a dragging_group frame does not read the task
list at all. The side condition says the captured ids are among the gesture
targets, which holds for every state handleNodeMouseDown builds. -/
theorem frame_function_of_latest_pointer :
    (∀ (scale : ℚ) (st : InteractionState) (ts : List Task)
       (es1 es2 : List PointerEvt) (e : PointerEvt),
      st.kind = IKind.dragging_node →
      (∀ s2, (st.initialPositions.map Prod.fst).contains s2 = true →
        st.targetIds.contains s2 = true) →
      processMouseMove scale (runFrames scale st ts es1).2.1 st e =
        processMouseMove scale ts st e ∧
      (runFrames scale st ts (es1 ++ [e])).2.1 =
        (runFrames scale st ts (es2 ++ [e])).2.1) ∧
    (∀ (scale : ℚ) (st : InteractionState) (ts ts2 : List Task) (e : PointerEvt),
      st.kind = IKind.dragging_group →
      processMouseMove scale ts st e = processMouseMove scale ts2 st e) := by
  constructor
  · intro scale st ts es1 es2 e hk hsub
    have hframe : ∀ es : List PointerEvt,
        processMouseMove scale (runFrames scale st ts es).2.1 st e =
          processMouseMove scale ts st e := fun es =>
      (node_frame_agrees scale st e ts (runFrames scale st ts es).2.1 hk
        (runFrames_node scale st hk es ts).2 hsub).symm
    refine ⟨hframe es1, ?_⟩
    rw [runFrames_node_snoc scale st hk es1 ts e, runFrames_node_snoc scale st hk es2 ts e,
      hframe es1, hframe es2,
      applyFrameEffects_node_frame scale ts st e _ hk,
      applyFrameEffects_node_frame scale ts st e _ hk]
    refine applyTasksUpdate_eq_of_agrees (st.initialPositions.map Prod.fst) _ ?_ ts _ _
      (runFrames_node scale st hk es1 ts).2 (runFrames_node scale st hk es2 ts).2
    intro s2 hs2
    obtain ⟨ent, hent, rfl⟩ := List.mem_map.1 ((contains_iff_mem _ _).1 hs2)
    exact ⟨⟨ent.1, ent.2.1 + (nodeSnapAdjust scale ts st e).1.1,
      ent.2.2 + (nodeSnapAdjust scale ts st e).1.2⟩, List.mem_map_of_mem _ hent, rfl⟩
  · intro scale st ts ts2 e hk
    rw [group_frame scale ts st e hk, group_frame scale ts2 st e hk]

/-- A one-task dragging_node state for the determinism witness. -/
def stD : InteractionState :=
  { kind := IKind.dragging_node
    startX := 0
    startY := 0
    targetIds := ["A"]
    primaryId := some "A"
    initialPositions := [("A", (0, 0))] }

/-- A dragging_group state for the determinism witness. -/
def stG2 : InteractionState :=
  { kind := IKind.dragging_group
    startX := 0
    startY := 0
    targetIds := ["G"]
    primaryId := some "G"
    initialPositions := [("G", (0, 0))] }

/-- Witness for C10: a one-frame prefix and a two-frame prefix ending in the
same event (20,20) leave the dragged task in the same place, and group-drag
frames ignore the task list. -/
theorem frame_function_of_latest_pointer_witness :
    stD.kind = IKind.dragging_node ∧
    (processMouseMove 1 (runFrames 1 stD [⟨"A", 0, 0, none, none, none⟩] [⟨3, 3⟩]).2.1
        stD ⟨20, 20⟩ =
      processMouseMove 1 [⟨"A", 0, 0, none, none, none⟩] stD ⟨20, 20⟩ ∧
     (runFrames 1 stD [⟨"A", 0, 0, none, none, none⟩] ([⟨3, 3⟩] ++ [⟨20, 20⟩])).2.1 =
      (runFrames 1 stD [⟨"A", 0, 0, none, none, none⟩]
        ([⟨7, 7⟩, ⟨100, 0⟩] ++ [⟨20, 20⟩])).2.1) ∧
    (stG2.kind = IKind.dragging_group ∧
     processMouseMove 1 [⟨"A", 0, 0, none, none, none⟩] stG2 ⟨5, 5⟩ =
       processMouseMove 1 [] stG2 ⟨5, 5⟩) :=
  ⟨rfl,
   frame_function_of_latest_pointer.1 1 stD [⟨"A", 0, 0, none, none, none⟩] [⟨3, 3⟩]
     [⟨7, 7⟩, ⟨100, 0⟩] ⟨20, 20⟩ rfl (fun _ h => h),
   ⟨rfl, frame_function_of_latest_pointer.2 1 stG2 [⟨"A", 0, 0, none, none, none⟩] [] ⟨5, 5⟩ rfl⟩⟩

end Will
